import Mathlib

/-! TP01: three command-line exercises.

A shallow embedding of the three C programs of the repository

* `Exercice02/EX02.c`  : prints the bytes of a file in reverse order,
* `Exercice03/EX03.c`  : lists the entries of a directory,
* `TP01/skeleton.c`    : copies a file in chunks of 8192 bytes.

Every program is a function from what the operating system and the C library
answer (an `Env`) and from the successive results of `getopt_long` to the
trace of every library call the program made, in program order, and the exit
status. The copy tool also returns the files it leaves, and takes a bound on
the number of turns of its `fread` loop.
-/

set_option autoImplicit false

namespace TP01

/-! ## Shared data model -/

/-- A C `char`. -/
abbrev Byte := UInt8

/-- The byte of an ASCII character literal of the source. -/
def ch (c : Char) : Byte := c.toNat.toUInt8

/-- The bytes of an ASCII string literal of the source. -/
def ascii (s : String) : List Byte := s.toList.map ch

/-- One result of `getopt_long` other than `-1`: the option character returned
and the value of the global `optarg` at that moment (`none` is `NULL`). -/
structure Opt where
  opt : Char
  optarg : Option (List Byte)
deriving DecidableEq, Repr

/-- A non-`NULL` `char*` returned by `strndup`: the heap block it points to and
the bytes stored there. A `char*` variable is an `Option CStr`. -/
structure CStr where
  blk : Nat
  str : List Byte
deriving DecidableEq, Repr

/-- The second argument of `lseek`. -/
inductive Whence where
  | SEEK_SET
  | SEEK_END
deriving DecidableEq, Repr

/-- One call to the C library or to the operating system, with its answer. -/
inductive Event where
  /-- `dprintf(fd, ...)` with the formatted bytes. -/
  | dprintf (fd : Nat) (bytes : List Byte)
  /-- `printf(...)` with the formatted bytes (standard output). -/
  | printf (bytes : List Byte)
  /-- `write(fd, buffer, n)` with the `n` bytes of the buffer. -/
  | write (fd : Nat) (bytes : List Byte)
  /-- `perror(msg)`: `msg` and the system error description on standard error. -/
  | perror (msg : List Byte)
  /-- `strndup(optarg, MAX_PATH_LENGTH)`: the block allocated, `none` on failure. -/
  | strndup (res : Option Nat)
  /-- `free(p)` of the block `blk`. -/
  | free (blk : Nat)
  /-- `open(path, O_RDONLY)`. -/
  | sys_open (path : List Byte) (ok : Bool)
  /-- `lseek(fd, off, whence)` and its return value. -/
  | lseek (off : Int) (whence : Whence) (ret : Int)
  /-- `read(fd, buffer, 1)` and its return value. -/
  | read (ret : Int)
  /-- `close(fd)`. -/
  | close
  /-- `fopen(path, mode)`; `slot` is the file the path names. -/
  | fopen (path : List Byte) (mode : List Byte) (slot : Nat) (ok : Bool)
  /-- `fread(buffer, 1, BUFFER_SIZE, source_file)` with the bytes obtained. -/
  | fread (got : List Byte)
  /-- `fwrite(buffer, 1, n, dest_file)` with the `n` bytes offered and the count returned. -/
  | fwrite (bytes : List Byte) (ret : Nat)
  /-- `fclose(stream)`: stream 0 is `source_file`, stream 1 is `dest_file`. -/
  | fclose (stream : Nat)
  /-- `opendir(path)`. -/
  | opendir (path : List Byte) (ok : Bool)
  /-- `readdir(dir)`: the entry name, `none` at the end of the directory. -/
  | readdir (name : Option (List Byte))
  /-- `stat(filepath, &file_stat)`. -/
  | stat (path : List Byte) (ok : Bool)
  /-- `getpwuid(uid)`; `ok` is false when it returns `NULL`. -/
  | getpwuid (uid : Nat) (ok : Bool)
  /-- `getgrgid(gid)`; `ok` is false when it returns `NULL`. -/
  | getgrgid (gid : Nat) (ok : Bool)
  /-- `closedir(dir)`. -/
  | closedir
deriving DecidableEq, Repr

/-- How a run ends. -/
inductive Status where
  /-- `exit(code)` or `return code` from `main`. -/
  | exit (code : Nat)
  /-- Dereference of a `NULL` pointer. -/
  | segv
deriving DecidableEq, Repr

def EXIT_SUCCESS : Nat := 0
def EXIT_FAILURE : Nat := 1
def STDOUT : Nat := 1
def STDERR : Nat := 2
def STDOUT_FILENO : Nat := 1
def MAX_PATH_LENGTH : Nat := 4096

/-- The `%-8s` conversion: the string, padded with spaces on the right to width 8. -/
def fmt_s8 (s : List Byte) : List Byte := s ++ List.replicate (8 - s.length) 32

/-- The `%d`, `%lld` conversions. -/
def fmt_d (n : Int) : List Byte := ascii (toString n)

/-- The `%zu` conversion. -/
def fmt_zu (n : Nat) : List Byte := ascii (toString n)

/-- The message of the usage check. -/
def BAD_USAGE : List Byte := ascii "Bad usage! See HELP [--help|-h]\n"

/-- `free_if_needed`: `free` unless the pointer is `NULL`. -/
def free_if_needed (to_free : Option CStr) : List Event :=
  match to_free with
  | none => []
  | some p => [Event.free p.blk]

/-- `dup_optarg_str`, given the global `optarg`. `nalloc` counts the calls to
`strndup` made so far and names the block a successful call returns;
`strndupOk k` tells whether the call number `k` succeeds and `strerror` is
the text of `strerror(errno)` after a failure.
Returns the calls made, the new count and the pointer returned. -/
def dup_optarg_str (strndupOk : Nat → Bool) (strerror : List Byte) (nalloc : Nat)
    (optarg : Option (List Byte)) : List Event × Nat × Option CStr :=
  match optarg with
  | none => ([], nalloc, none)
  | some s =>
    if strndupOk nalloc then
      ([Event.strndup (some nalloc)], nalloc + 1, some ⟨nalloc, s.take MAX_PATH_LENGTH⟩)
    else
      ([Event.strndup none, Event.perror strerror], nalloc + 1, none)

/-! ### Observations on a trace -/

/-- The bytes sent straight to file descriptor 1 by `dprintf(1, ...)` and
`write(1, ...)`, in order. -/
def directOf : List Event → List Byte
  | [] => []
  | Event.dprintf fd bs :: t => if fd = 1 then bs ++ directOf t else directOf t
  | Event.write fd bs :: t => if fd = 1 then bs ++ directOf t else directOf t
  | _ :: t => directOf t

/-- The texts of the `printf` calls, in order. -/
def printfs : List Event → List (List Byte)
  | [] => []
  | Event.printf bs :: t => bs :: printfs t
  | _ :: t => printfs t

/-- The texts of the `dprintf(1, ...)` calls, in order. -/
def dprintfLines : List Event → List (List Byte)
  | [] => []
  | Event.dprintf fd bs :: t => if fd = 1 then bs :: dprintfLines t else dprintfLines t
  | _ :: t => dprintfLines t

/-- Whether an event sends bytes towards standard output. -/
def Event.isStdout : Event → Bool
  | Event.dprintf fd _ => fd == 1
  | Event.printf _ => true
  | Event.write fd _ => fd == 1
  | _ => false

/-- Whether an event is a `dprintf` on standard error. -/
def Event.isErrDprintf : Event → Bool
  | Event.dprintf fd _ => fd == 2
  | _ => false

/-- No call of the trace is a `dprintf` on standard error. -/
def noErrDprintf (t : List Event) : Bool := t.all (fun e => !e.isErrDprintf)

/-- What reaches file descriptor 1 while the calls of a trace are made and
when the program ends. `dprintf` and `write` send their bytes at once.
`printf` appends its text to the buffer of stdio, and the `printf` call number
`k` sends the first `flush k` bytes of the buffer (all of them when `flush k`
is at least the size of the buffer): everything on an unbuffered stream or,
for a text that ends a line, on a line-buffered one (a terminal); nothing on a
fully buffered one (a pipe, a file) as long as the buffer is not full. `k`
counts the `printf` calls made so far and `pending` is the buffer of stdio.
When the program ends by `exit` or by returning from `main` the buffer is
sent; it is lost when the program is killed. -/
def stdoutFrom (flush : Nat → Nat) (status : Status) :
    List Event → Nat → List Byte → List Byte
  | [], _, pending =>
    match status with
    | Status.exit _ => pending
    | Status.segv => []
  | Event.dprintf fd bs :: t, k, pending =>
    if fd = 1 then bs ++ stdoutFrom flush status t k pending
    else stdoutFrom flush status t k pending
  | Event.write fd bs :: t, k, pending =>
    if fd = 1 then bs ++ stdoutFrom flush status t k pending
    else stdoutFrom flush status t k pending
  | Event.printf bs :: t, k, pending =>
    (pending ++ bs).take (flush k)
      ++ stdoutFrom flush status t (k + 1) ((pending ++ bs).drop (flush k))
  | _ :: t, k, pending => stdoutFrom flush status t k pending

/-- What a run puts on standard output, given its trace, how it ended and how
stdio empties its buffer (see `stdoutFrom`). -/
def stdoutOf (flush : Nat → Nat) (trace : List Event) (status : Status) : List Byte :=
  stdoutFrom flush status trace 0 []

/-- The number a string of decimal digits denotes. -/
def decimalValue (s : List Byte) : Nat := s.foldl (fun v d => 10 * v + (d.toNat - 48)) 0

/-- The string `s` is the decimal numeral of `n`: digits `0` to `9` only, at
least one, no leading `0` except in the numeral `0` itself, denoting `n`. -/
def isDecimalOf (s : List Byte) (n : Nat) : Prop :=
  s ≠ [] ∧ (∀ d ∈ s, 48 ≤ d.toNat ∧ d.toNat ≤ 57) ∧ (s.head? = some 48 → s = [48]) ∧
    decimalValue s = n

/-- The blocks returned by successful `strndup` calls. -/
def allocated : List Event → List Nat
  | [] => []
  | Event.strndup (some b) :: t => b :: allocated t
  | _ :: t => allocated t

/-- The blocks passed to `free`, with repetitions. -/
def freed : List Event → List Nat
  | [] => []
  | Event.free b :: t => b :: freed t
  | _ :: t => freed t

/-- The offsets of the `lseek(fd, i, SEEK_SET)` calls, in order. -/
def seekOffsets : List Event → List Int
  | [] => []
  | Event.lseek off Whence.SEEK_SET _ :: t => off :: seekOffsets t
  | _ :: t => seekOffsets t

/-- The bytes of the `write(STDOUT_FILENO, ...)` calls, in order. -/
def writtenBytes : List Event → List Byte
  | [] => []
  | Event.write fd bs :: t => if fd = STDOUT_FILENO then bs ++ writtenBytes t else writtenBytes t
  | _ :: t => writtenBytes t

/-- The number of `read` calls. -/
def readCount : List Event → Nat
  | [] => 0
  | Event.read _ :: t => readCount t + 1
  | _ :: t => readCount t

/-- Whether an event opens, reads, writes, positions or closes a file or a directory. -/
def Event.isFileIO : Event → Bool
  | Event.sys_open _ _ => true
  | Event.lseek _ _ _ => true
  | Event.read _ => true
  | Event.close => true
  | Event.fopen _ _ _ _ => true
  | Event.fread _ => true
  | Event.fwrite _ _ => true
  | Event.fclose _ => true
  | Event.opendir _ _ => true
  | Event.readdir _ => true
  | Event.stat _ _ => true
  | Event.closedir => true
  | _ => false

/-- A run that reports the usage error: the message on standard error, exit
code 1, and no file or directory touched. -/
def isUsageError (trace : List Event) (status : Status) : Prop :=
  Event.dprintf STDERR BAD_USAGE ∈ trace ∧ status = Status.exit 1 ∧
    ∀ e ∈ trace, e.isFileIO = false

/-- The option `c` was given with an argument. -/
def supplied (c : Char) (opts : List Opt) : Prop :=
  ∃ o ∈ opts, o.opt = c ∧ o.optarg ≠ none

/-- The help option was returned by `getopt_long`. -/
def helpSeen (opts : List Opt) : Prop := ∃ o ∈ opts, o.opt = 'h'

/-! ## Exercice02/EX02.c : the reverse tool -/

namespace EX02

def USAGE_SYNTAX : List Byte := ascii "[OPTIONS] -i INPUT"

def USAGE_PARAMS : List Byte := ascii
  "OPTIONS:\n  -i, --input  INPUT_FILE  : input file\n***\n  -v, --verbose : enable *verbose* mode\n  -h, --help    : display this help\n"

/-- `print_usage`: `dprintf(1, "USAGE: %s %s\n\n%s\n", ...)`. -/
def print_usage (bin_name : List Byte) : List Event :=
  [Event.dprintf 1 (ascii "USAGE: " ++ bin_name ++ ascii " " ++ USAGE_SYNTAX ++ ascii "\n\n"
    ++ USAGE_PARAMS ++ ascii "\n")]

/-- What the system answers to the reverse tool. -/
structure Env where
  /-- Whether the `strndup` call number `k` succeeds. -/
  strndupOk : Nat → Bool
  /-- Text of `strerror(errno)` after a failed `strndup`. -/
  strerror : List Byte
  /-- Content of the file `open(path, O_RDONLY)` opens, `none` when it fails. -/
  file : List Byte → Option (List Byte)
  /-- Whether `lseek(fd, 0, SEEK_END)` fails. -/
  sizeFails : Bool
  /-- Whether `lseek(fd, i, SEEK_SET)` fails. -/
  seekFails : Nat → Bool
  /-- Whether the `read` at offset `i` fails. -/
  readFails : Nat → Bool
  /-- Initial content of the uninitialised `buffer`. -/
  buffer : Byte

/-- The variables of `main` set by the option loop. -/
structure Params where
  is_verbose_mode : Nat
  bin_input_param : Option CStr
deriving DecidableEq, Repr

/-- The option loop of `main` (lines 108-130) over the remaining results of
`getopt_long`. Returns the calls made and, unless the program exited on
`-h`, the variables and the allocation count at the end of the loop. -/
def parseOptions (env : Env) (argv0 : List Byte) :
    List Opt → Params → Nat → List Event × Option (Params × Nat)
  | [], p, n => ([], some (p, n))
  | o :: rest, p, n =>
    if o.opt = 'i' then
      match o.optarg with
      | some _ =>
        let r := dup_optarg_str env.strndupOk env.strerror n o.optarg
        let k := parseOptions env argv0 rest { p with bin_input_param := r.2.2 } r.2.1
        (r.1 ++ k.1, k.2)
      | none => parseOptions env argv0 rest p n
    else if o.opt = 'v' then
      parseOptions env argv0 rest { p with is_verbose_mode := 1 } n
    else if o.opt = 'h' then
      (print_usage argv0 ++ free_if_needed p.bin_input_param, none)
    else
      parseOptions env argv0 rest p n

/-- The loop `for (off_t i = file_size - 1; i >= 0; i--)` (lines 176-197).
The numeric argument is `i + 1`, `buf` is the content of `buffer[0]`.
Returns the calls made and `some code` when the body called `exit(code)`. -/
def reverseLoop (env : Env) (content : List Byte) (param : Option CStr) :
    Nat → Byte → List Event × Option Nat
  | 0, _ => ([], none)
  | i + 1, buf =>
    if env.seekFails i then
      ([Event.lseek i Whence.SEEK_SET (-1), Event.perror (ascii "Error seeking in the file")]
        ++ free_if_needed param ++ [Event.close], some EXIT_FAILURE)
    else if env.readFails i then
      ([Event.lseek i Whence.SEEK_SET i, Event.read (-1),
        Event.perror (ascii "Error reading the file")]
        ++ free_if_needed param ++ [Event.close], some EXIT_FAILURE)
    else
      let buf1 := (content.get? i).getD buf
      let ret : Int := if i < content.length then 1 else 0
      let k := reverseLoop env content param i buf1
      ([Event.lseek i Whence.SEEK_SET i, Event.read ret, Event.write STDOUT_FILENO [buf1]] ++ k.1,
        k.2)

/-- The first `dprintf` of the business part (lines 147-149). -/
def banner (path : List Byte) (verbose : Nat) : List Byte :=
  ascii "** PARAMS **\n" ++ fmt_s8 (ascii "input") ++ ascii ": " ++ path ++ ascii "\n"
    ++ fmt_s8 (ascii "verbose") ++ ascii ": " ++ fmt_d verbose ++ ascii "\n\n"

/-- The `printf` of line 173. -/
def header (path : List Byte) : List Byte :=
  ascii "Contents of the file " ++ path ++ ascii " in reverse order:\n"

/-- The business part of `main` (lines 146-203) once `bin_input_param` is not `NULL`. -/
def reverseFile (env : Env) (verbose : Nat) (param : CStr) : List Event × Status :=
  let t1 := [Event.dprintf 1 (banner param.str verbose)]
  match env.file param.str with
  | none =>
    (t1 ++ [Event.sys_open param.str false, Event.perror (ascii "Error opening the file")]
      ++ free_if_needed (some param), Status.exit EXIT_FAILURE)
  | some content =>
    let t2 := t1 ++ [Event.sys_open param.str true]
    if env.sizeFails then
      (t2 ++ [Event.lseek 0 Whence.SEEK_END (-1), Event.perror (ascii "Error getting file size")]
        ++ free_if_needed (some param) ++ [Event.close], Status.exit EXIT_FAILURE)
    else
      let file_size := content.length
      let t3 := t2 ++ [Event.lseek 0 Whence.SEEK_END file_size, Event.printf (header param.str)]
      let k := reverseLoop env content (some param) file_size env.buffer
      match k.2 with
      | some code => (t3 ++ k.1, Status.exit code)
      | none =>
        (t3 ++ k.1 ++ [Event.printf (ascii "\n"), Event.close] ++ free_if_needed (some param),
          Status.exit EXIT_SUCCESS)

/-- The program: `argv0` is `argv[0]`, `opts` the successive results of `getopt_long`. -/
def main (env : Env) (argv0 : List Byte) (opts : List Opt) : List Event × Status :=
  let r := parseOptions env argv0 opts ⟨0, none⟩ 0
  match r.2 with
  | none => (r.1, Status.exit EXIT_SUCCESS)
  | some (p, _) =>
    match p.bin_input_param with
    | none =>
      (r.1 ++ [Event.dprintf STDERR BAD_USAGE] ++ free_if_needed p.bin_input_param,
        Status.exit EXIT_FAILURE)
    | some param =>
      let k := reverseFile env p.is_verbose_mode param
      (r.1 ++ k.1, k.2)

end EX02

/-! ## Exercice03/EX03.c : the directory lister -/

namespace EX03

def USAGE_SYNTAX : List Byte := ascii "[OPTIONS] -d DIRECTORY"

def USAGE_PARAMS : List Byte := ascii
  "OPTIONS:\n  -d, --directory  DIRECTORY : directory to list\n  -v, --verbose : enable *verbose* mode\n  -h, --help    : display this help\n"

/-- `print_usage`: `dprintf(1, "USAGE: %s %s\n\n%s\n", ...)`. -/
def print_usage (bin_name : List Byte) : List Event :=
  [Event.dprintf 1 (ascii "USAGE: " ++ bin_name ++ ascii " " ++ USAGE_SYNTAX ++ ascii "\n\n"
    ++ USAGE_PARAMS ++ ascii "\n")]

/-- The fields of `struct stat` the program reads. -/
structure Stat where
  st_mode : Nat
  st_uid : Nat
  st_gid : Nat
  st_size : Int
  st_mtime : Int
deriving DecidableEq, Repr

/-- What the system answers to the lister. -/
structure Env where
  /-- Whether the `strndup` call number `k` succeeds. -/
  strndupOk : Nat → Bool
  /-- Text of `strerror(errno)` after a failed `strndup`. -/
  strerror : List Byte
  /-- The names `readdir` returns for the directory `opendir(path)` opens, in
  order; `none` when `opendir` fails. -/
  dir : List Byte → Option (List (List Byte))
  /-- The answer of `stat(filepath, &file_stat)`, `none` when it fails. -/
  stat : List Byte → Option Stat
  /-- `getpwuid(uid)->pw_name`, `none` when `getpwuid` returns `NULL`. -/
  pw_name : Nat → Option (List Byte)
  /-- `getgrgid(gid)->gr_name`, `none` when `getgrgid` returns `NULL`. -/
  gr_name : Nat → Option (List Byte)
  /-- What `strftime(..., "%y/%m/%d @ %H:%M", localtime(&t))` writes for the time `t`. -/
  strftime : Int → List Byte

/-- Modelled from the spec: the permission macros `S_IRUSR` ... `S_IXOTH` of
`<sys/stat.h>`, which the repository does not hold: the mode bits 0400, 0200,
0100, 0040, 0020, 0010, 0004, 0002, 0001. -/
def S_IRUSR : Nat := 0o400
def S_IWUSR : Nat := 0o200
def S_IXUSR : Nat := 0o100
def S_IRGRP : Nat := 0o040
def S_IWGRP : Nat := 0o020
def S_IXGRP : Nat := 0o010
def S_IROTH : Nat := 0o004
def S_IWOTH : Nat := 0o002
def S_IXOTH : Nat := 0o001

/-- Modelled from the spec: the macro `S_ISDIR` of `<sys/stat.h>`, which the
repository does not hold: whether the mode is that of a directory, that is
whether the file type bits (mask 0170000) are 0040000. -/
def S_ISDIR (m : Nat) : Bool := m &&& 0o170000 == 0o040000

/-- The conditional `(mode & bit) ? c : '-'`. -/
def permChar (mode bit : Nat) (c : Char) : Byte :=
  if mode &&& bit ≠ 0 then ch c else ch '-'

/-- The array `permissions` filled at lines 109-120, without the final NUL. -/
def permissions (st_mode : Nat) : List Byte :=
  [ (if S_ISDIR st_mode then ch 'd' else ch '-'),
    permChar st_mode S_IRUSR 'r',
    permChar st_mode S_IWUSR 'w',
    permChar st_mode S_IXUSR 'x',
    permChar st_mode S_IRGRP 'r',
    permChar st_mode S_IWGRP 'w',
    permChar st_mode S_IXGRP 'x',
    permChar st_mode S_IROTH 'r',
    permChar st_mode S_IWOTH 'w',
    permChar st_mode S_IXOTH 'x' ]

/-- The line of `dprintf(1, "%s %s %s %lld %s %s\n", ...)` (line 128). -/
def entryLine (perms pw_name gr_name : List Byte) (st_size : Int)
    (modification_time d_name : List Byte) : List Byte :=
  perms ++ ascii " " ++ pw_name ++ ascii " " ++ gr_name ++ ascii " " ++ fmt_d st_size
    ++ ascii " " ++ modification_time ++ ascii " " ++ d_name ++ ascii "\n"

/-- The variables of `main` set by the option loop. -/
structure Params where
  is_verbose_mode : Nat
  bin_directory_param : Option CStr
deriving DecidableEq, Repr

/-- The option loop of `main` (lines 66-86). -/
def parseOptions (env : Env) (argv0 : List Byte) :
    List Opt → Params → Nat → List Event × Option (Params × Nat)
  | [], p, n => ([], some (p, n))
  | o :: rest, p, n =>
    if o.opt = 'd' then
      match o.optarg with
      | some _ =>
        let r := dup_optarg_str env.strndupOk env.strerror n o.optarg
        let k := parseOptions env argv0 rest { p with bin_directory_param := r.2.2 } r.2.1
        (r.1 ++ k.1, k.2)
      | none => parseOptions env argv0 rest p n
    else if o.opt = 'v' then
      parseOptions env argv0 rest { p with is_verbose_mode := 1 } n
    else if o.opt = 'h' then
      (print_usage argv0 ++ free_if_needed p.bin_directory_param, none)
    else
      parseOptions env argv0 rest p n

/-- The loop `while ((ent = readdir(dir)) != NULL)` (lines 101-130) over the
names `readdir` still has to return. Returns the calls made and `some s` when
the body ended the program with status `s`. -/
def listEntries (env : Env) (dirpath : List Byte) :
    List (List Byte) → List Event × Option Status
  | [] => ([Event.readdir none], none)
  | d_name :: rest =>
    let filepath := (dirpath ++ ascii "/" ++ d_name).take (MAX_PATH_LENGTH - 1)
    match env.stat filepath with
    | none =>
      let k := listEntries env dirpath rest
      ([Event.readdir (some d_name), Event.stat filepath false] ++ k.1, k.2)
    | some file_stat =>
      let t := [Event.readdir (some d_name), Event.stat filepath true]
      match env.pw_name file_stat.st_uid, env.gr_name file_stat.st_gid with
      | some owner, some group =>
        let k := listEntries env dirpath rest
        (t ++ [Event.getpwuid file_stat.st_uid true, Event.getgrgid file_stat.st_gid true,
            Event.dprintf 1 (entryLine (permissions file_stat.st_mode) owner group
              file_stat.st_size (env.strftime file_stat.st_mtime) d_name)] ++ k.1, k.2)
      | o, g =>
        (t ++ [Event.getpwuid file_stat.st_uid o.isSome, Event.getgrgid file_stat.st_gid g.isSome],
          some Status.segv)

/-- The program: `argv0` is `argv[0]`, `opts` the successive results of `getopt_long`. -/
def main (env : Env) (argv0 : List Byte) (opts : List Opt) : List Event × Status :=
  let r := parseOptions env argv0 opts ⟨0, none⟩ 0
  match r.2 with
  | none => (r.1, Status.exit EXIT_SUCCESS)
  | some (p, _) =>
    match p.bin_directory_param with
    | none =>
      (r.1 ++ [Event.dprintf STDERR BAD_USAGE] ++ free_if_needed p.bin_directory_param,
        Status.exit EXIT_FAILURE)
    | some param =>
      match env.dir param.str with
      | some names =>
        let k := listEntries env param.str names
        match k.2 with
        | some s => (r.1 ++ [Event.opendir param.str true] ++ k.1, s)
        | none =>
          (r.1 ++ [Event.opendir param.str true] ++ k.1 ++ [Event.closedir]
            ++ free_if_needed (some param), Status.exit EXIT_SUCCESS)
      | none =>
        (r.1 ++ [Event.opendir param.str false, Event.perror (ascii "Error opening directory")]
          ++ free_if_needed (some param), Status.exit EXIT_FAILURE)

end EX03

/-! ## TP01/skeleton.c : the copy tool -/

namespace Skeleton

def BUFFER_SIZE : Nat := 8192

def USAGE_SYNTAX : List Byte := ascii "[OPTIONS] -i INPUT -o OUTPUT"

def USAGE_PARAMS : List Byte := ascii
  "OPTIONS:\n  -i, --input  INPUT_FILE  : input file\n  -o, --output OUTPUT_FILE : output file\n***\n  -v, --verbose : enable *verbose* mode\n  -h, --help    : display this help\n"

/-- `print_usage`: `dprintf(1, "USAGE: %s %s\n\n%s\n", ...)`. -/
def print_usage (bin_name : List Byte) : List Event :=
  [Event.dprintf 1 (ascii "USAGE: " ++ bin_name ++ ascii " " ++ USAGE_SYNTAX ++ ascii "\n\n"
    ++ USAGE_PARAMS ++ ascii "\n")]

/-- The content of every file, by the number of the file; `none` is a file
that does not exist. -/
abbrev Disk := Nat → Option (List Byte)

/-- What the system answers to the copy tool. -/
structure Env where
  /-- Whether the `strndup` call number `k` succeeds. -/
  strndupOk : Nat → Bool
  /-- Text of `strerror(errno)` after a failed `strndup`. -/
  strerror : List Byte
  /-- The file a path names; two paths may name the same file. -/
  resolve : List Byte → Nat
  /-- The files when the program starts. -/
  disk : Disk
  /-- Whether an existing file may be opened for reading. -/
  readable : Nat → Bool
  /-- Whether a file may be created or truncated for writing. -/
  writable : Nat → Bool
  /-- The `fread` call number `k` hits an error after `j` bytes when
  `readErr k = some j`, and none when `readErr k = none`. -/
  readErr : Nat → Option Nat
  /-- The `fwrite` call number `k` hits an error after at most `j` bytes when
  `writeErr k = some j`, and none when `writeErr k = none`. -/
  writeErr : Nat → Option Nat

/-- The variables of `main` set by the option loop. -/
structure Params where
  is_verbose_mode : Nat
  bin_input_param : Option CStr
  bin_output_param : Option CStr
deriving DecidableEq, Repr

/-- The option loop of `main` (lines 120-152). -/
def parseOptions (env : Env) (argv0 : List Byte) :
    List Opt → Params → Nat → List Event × Option (Params × Nat)
  | [], p, n => ([], some (p, n))
  | o :: rest, p, n =>
    if o.opt = 'i' then
      match o.optarg with
      | some _ =>
        let r := dup_optarg_str env.strndupOk env.strerror n o.optarg
        let k := parseOptions env argv0 rest { p with bin_input_param := r.2.2 } r.2.1
        (r.1 ++ k.1, k.2)
      | none => parseOptions env argv0 rest p n
    else if o.opt = 'o' then
      match o.optarg with
      | some _ =>
        let r := dup_optarg_str env.strndupOk env.strerror n o.optarg
        let k := parseOptions env argv0 rest { p with bin_output_param := r.2.2 } r.2.1
        (r.1 ++ k.1, k.2)
      | none => parseOptions env argv0 rest p n
    else if o.opt = 'v' then
      parseOptions env argv0 rest { p with is_verbose_mode := 1 } n
    else if o.opt = 'h' then
      (print_usage argv0 ++ free_if_needed p.bin_input_param
        ++ free_if_needed p.bin_output_param, none)
    else
      parseOptions env argv0 rest p n

/-- The files and the two streams while the copy loop runs. -/
structure Files where
  disk : Disk
  /-- Position of `source_file`. -/
  rpos : Nat
  /-- Position of `dest_file`. -/
  wpos : Nat
  /-- Calls to `fread` made so far. -/
  nread : Nat
  /-- Calls to `fwrite` made so far. -/
  nwrite : Nat

/-- The content of a file after `bytes` are written at position `pos`. -/
def writeAt (content : List Byte) (pos : Nat) (bytes : List Byte) : List Byte :=
  content.take pos ++ List.replicate (pos - content.length) 0 ++ bytes
    ++ content.drop (pos + bytes.length)

/-- The line of `printf("Copied %zu bytes\n", bytes_read)`. -/
def copiedLine (bytes_read : Nat) : List Byte :=
  ascii "Copied " ++ fmt_zu bytes_read ++ ascii " bytes\n"

/-- The loop `while ((bytes_read = fread(...)) > 0)` (lines 198-210); `src` and
`dst` are the files behind `source_file` and `dest_file`. The first argument
bounds the number of `fread` calls: `none` means the bound was reached.
Returns the calls made, `some code` when the body called `exit(code)`, and the
files at the end. -/
def copyLoop (env : Env) (verbose : Nat) (src dst : Nat) :
    Nat → Files → Option (List Event × Option Nat × Files)
  | 0, _ => none
  | fuel + 1, f =>
    let want := (((f.disk src).getD []).drop f.rpos).take BUFFER_SIZE
    let buffer := match env.readErr f.nread with
      | none => want
      | some j => want.take j
    let bytes_read := buffer.length
    let f1 : Files := { f with rpos := f.rpos + bytes_read, nread := f.nread + 1 }
    if bytes_read > 0 then
      let ret := match env.writeErr f1.nwrite with
        | none => bytes_read
        | some j => min j (bytes_read - 1)
      let f2 : Files := { f1 with
        disk := fun s =>
          if s = dst then some (writeAt ((f1.disk dst).getD []) f1.wpos (buffer.take ret))
          else f1.disk s
        wpos := f1.wpos + ret
        nwrite := f1.nwrite + 1 }
      if ret ≠ bytes_read then
        some ([Event.fread buffer, Event.fwrite buffer ret,
          Event.perror (ascii "Failed to write to destination file"),
          Event.fclose 0, Event.fclose 1], some EXIT_FAILURE, f2)
      else
        let say := if verbose ≠ 0 then [Event.printf (copiedLine bytes_read)] else []
        match copyLoop env verbose src dst fuel f2 with
        | none => none
        | some k => some ([Event.fread buffer, Event.fwrite buffer ret] ++ say ++ k.1, k.2.1, k.2.2)
    else
      some ([Event.fread buffer], none, f1)

/-- The `dprintf` of lines 171-174. -/
def banner (input output : List Byte) (verbose : Nat) : List Byte :=
  ascii "** PARAMS **\n" ++ fmt_s8 (ascii "input") ++ ascii ": " ++ input ++ ascii "\n"
    ++ fmt_s8 (ascii "output") ++ ascii ": " ++ output ++ ascii "\n"
    ++ fmt_s8 (ascii "verbose") ++ ascii ": " ++ fmt_d verbose ++ ascii "\n"

/-- A finished run of the copy tool: the calls made, the exit status and the
files afterwards. -/
structure Run where
  trace : List Event
  status : Status
  disk : Disk

/-- The business part of `main` (lines 171-221) once both parameters are not `NULL`. -/
def copyFile (env : Env) (verbose : Nat) (input output : CStr) (fuel : Nat) : Option Run :=
  let t1 := [Event.dprintf 1 (banner input.str output.str verbose)]
  let src := env.resolve input.str
  if (env.disk src).isSome && env.readable src then
    let t2 := t1 ++ [Event.fopen input.str (ascii "rb") src true]
    let dst := env.resolve output.str
    if env.writable dst then
      let t3 := t2 ++ [Event.fopen output.str (ascii "wb") dst true]
      let disk1 : Disk := fun s => if s = dst then some [] else env.disk s
      match copyLoop env verbose src dst fuel ⟨disk1, 0, 0, 0, 0⟩ with
      | none => none
      | some k =>
        match k.2.1 with
        | some code => some ⟨t3 ++ k.1, Status.exit code, k.2.2.disk⟩
        | none =>
          some ⟨t3 ++ k.1 ++ [Event.fclose 0, Event.fclose 1] ++ free_if_needed (some input)
            ++ free_if_needed (some output), Status.exit EXIT_SUCCESS, k.2.2.disk⟩
    else
      some ⟨t2 ++ [Event.fopen output.str (ascii "wb") dst false,
        Event.perror (ascii "Failed to open or create the destination file for writing"),
        Event.fclose 0], Status.exit EXIT_FAILURE, env.disk⟩
  else
    some ⟨t1 ++ [Event.fopen input.str (ascii "rb") src false,
      Event.perror (ascii "Failed to open the source file for reading")],
      Status.exit EXIT_FAILURE, env.disk⟩

/-- The program: `argv0` is `argv[0]`, `opts` the successive results of
`getopt_long`, `fuel` the bound on the number of `fread` calls. -/
def main (env : Env) (argv0 : List Byte) (opts : List Opt) (fuel : Nat) : Option Run :=
  let r := parseOptions env argv0 opts ⟨0, none, none⟩ 0
  match r.2 with
  | none => some ⟨r.1, Status.exit EXIT_SUCCESS, env.disk⟩
  | some (p, _) =>
    match p.bin_input_param, p.bin_output_param with
    | some input, some output =>
      match copyFile env p.is_verbose_mode input output fuel with
      | none => none
      | some k => some ⟨r.1 ++ k.trace, k.status, k.disk⟩
    | _, _ =>
      some ⟨r.1 ++ [Event.dprintf STDERR BAD_USAGE] ++ free_if_needed p.bin_input_param
        ++ free_if_needed p.bin_output_param, Status.exit EXIT_FAILURE, env.disk⟩

end Skeleton

/-- The calls of one turn of the copy loop on the chunk `c`: the `fread` that
obtains it, the `fwrite` that writes it whole and, in verbose mode, the
`printf` of its size. -/
def Skeleton.chunkEvents (verbose : Nat) (c : List Byte) : List Event :=
  [Event.fread c, Event.fwrite c c.length]
    ++ (if verbose ≠ 0 then [Event.printf (Skeleton.copiedLine c.length)] else [])

/-- The line the lister prints for the entry `name` of the directory
`dirpath`: none when `stat` fails on the entry (or an owner or group lookup
fails), else the permission string, the owner, the group, the size, the
modification time and the name, separated by spaces and ended by a newline. -/
def EX03.lineOf (env : EX03.Env) (dirpath name : List Byte) : Option (List Byte) :=
  match env.stat ((dirpath ++ ascii "/" ++ name).take 4095) with
  | none => none
  | some st =>
    match env.pw_name st.st_uid, env.gr_name st.st_gid with
    | some owner, some group =>
      some (EX03.permissions st.st_mode ++ ascii " " ++ owner ++ ascii " " ++ group ++ ascii " "
        ++ fmt_d st.st_size ++ ascii " " ++ env.strftime st.st_mtime ++ ascii " " ++ name
        ++ ascii "\n")
    | _, _ => none

/-- A stdio that sends every text as soon as it is printed (a terminal). -/
def flushEachCall : Nat → Nat := fun _ => 1000000

/-- A stdio that sends nothing before the program ends (a pipe or a file whose
buffer never fills). -/
def flushAtExit : Nat → Nat := fun _ => 0

/-! ## Sample runs -/

/-- A system where every call succeeds and every path opens a file holding "ABC". -/
def EX02.envABC : EX02.Env :=
  { strndupOk := fun _ => true, strerror := [], file := fun _ => some (ascii "ABC"),
    sizeFails := false, seekFails := fun _ => false, readFails := fun _ => false, buffer := 0 }

/-- A system where every call succeeds and every path opens an empty file. -/
def EX02.envEmpty : EX02.Env :=
  { strndupOk := fun _ => true, strerror := [], file := fun _ => some [],
    sizeFails := false, seekFails := fun _ => false, readFails := fun _ => false, buffer := 0 }

/-- The options of the command line `-i f`. -/
def optsInput : List Opt := [⟨'i', some (ascii "f")⟩]

/-- A directory `d` holding one regular file `a.txt` of size 5, mode 0644, owned by root. -/
def EX03.envOneFile : EX03.Env :=
  { strndupOk := fun _ => true, strerror := [],
    dir := fun _ => some [ascii "a.txt"],
    stat := fun _ => some ⟨0o100644, 0, 0, 5, 0⟩,
    pw_name := fun _ => some (ascii "root"), gr_name := fun _ => some (ascii "root"),
    strftime := fun _ => ascii "24/01/01 @ 00:00" }

/-- The system of `EX02.envABC` with no memory left: every `strndup` fails. -/
def EX02.envNoMem : EX02.Env :=
  { strndupOk := fun _ => false, strerror := ascii "Cannot allocate memory",
    file := fun _ => some (ascii "ABC"),
    sizeFails := false, seekFails := fun _ => false, readFails := fun _ => false, buffer := 0 }

/-- A disk where the path `f` names file 1, holding "ABC", and the path `gg`
names file 2, which does not exist; every call succeeds. -/
def Skeleton.envCopy : Skeleton.Env :=
  { strndupOk := fun _ => true, strerror := [], resolve := fun path => path.length,
    disk := fun s => if s = 1 then some (ascii "ABC") else none,
    readable := fun _ => true, writable := fun _ => true,
    readErr := fun _ => none, writeErr := fun _ => none }

/-- An empty disk: no path names an existing file. -/
def Skeleton.envNoSource : Skeleton.Env :=
  { strndupOk := fun _ => true, strerror := [], resolve := fun path => path.length,
    disk := fun _ => none,
    readable := fun _ => true, writable := fun _ => true,
    readErr := fun _ => none, writeErr := fun _ => none }

/-- The disk of `Skeleton.envCopy` where the first `fread` fails at once. -/
def Skeleton.envReadError : Skeleton.Env :=
  { strndupOk := fun _ => true, strerror := [], resolve := fun path => path.length,
    disk := fun s => if s = 1 then some (ascii "ABC") else none,
    readable := fun _ => true, writable := fun _ => true,
    readErr := fun k => if k = 0 then some 0 else none, writeErr := fun _ => none }

/-- The disk of `Skeleton.envCopy` where the first `fwrite` writes one byte only. -/
def Skeleton.envWriteError : Skeleton.Env :=
  { strndupOk := fun _ => true, strerror := [], resolve := fun path => path.length,
    disk := fun s => if s = 1 then some (ascii "ABC") else none,
    readable := fun _ => true, writable := fun _ => true,
    readErr := fun _ => none, writeErr := fun k => if k = 0 then some 1 else none }

/-- A directory `d` holding `.`, `..` and one regular file `a.txt` of size 5 and
mode 0644, all owned by root: `stat` tells them apart by the length of the path. -/
def EX03.envDir : EX03.Env :=
  { strndupOk := fun _ => true, strerror := [],
    dir := fun _ => some [ascii ".", ascii "..", ascii "a.txt"],
    stat := fun path =>
      if path.length = 7 then some ⟨0o100644, 0, 0, 5, 0⟩ else some ⟨0o040755, 0, 0, 4096, 0⟩,
    pw_name := fun _ => some (ascii "root"), gr_name := fun _ => some (ascii "root"),
    strftime := fun _ => ascii "24/01/01 @ 00:00" }

/-- The options of the command line `-d d`. -/
def optsDir : List Opt := [⟨'d', some (ascii "d")⟩]

/-- A disk where the path `f` names file 1, holding 8193 bytes, and the path
`gg` names file 2, which does not exist; every call succeeds. -/
def Skeleton.envBig : Skeleton.Env :=
  { strndupOk := fun _ => true, strerror := [], resolve := fun path => path.length,
    disk := fun s => if s = 1 then some (List.replicate 8193 65) else none,
    readable := fun _ => true, writable := fun _ => true,
    readErr := fun _ => none, writeErr := fun _ => none }

/-- The options of the command line `-i f -o gg`. -/
def optsCopy : List Opt := [⟨'i', some (ascii "f")⟩, ⟨'o', some (ascii "gg")⟩]

/-- The options of the command line `-i f -i f -h`. -/
def optsTwiceHelp : List Opt :=
  [⟨'i', some (ascii "f")⟩, ⟨'i', some (ascii "f")⟩, ⟨'h', none⟩]

/-- The options of the command line `-d f -d f -h`. -/
def optsDirTwiceHelp : List Opt :=
  [⟨'d', some (ascii "f")⟩, ⟨'d', some (ascii "f")⟩, ⟨'h', none⟩]

/-- The options of the command line `-i f -v -o gg`. -/
def optsCopyVerbose : List Opt :=
  [⟨'i', some (ascii "f")⟩, ⟨'v', none⟩, ⟨'o', some (ascii "gg")⟩]

/-- The options of the command line `-i f -v -o f`. -/
def optsCopySame : List Opt :=
  [⟨'i', some (ascii "f")⟩, ⟨'v', none⟩, ⟨'o', some (ascii "f")⟩]

/-! ## Theorems -/

/-- The reverse loop from offset `k - 1` down to 0 when every seek and read
succeeds: it ends normally after seeking to `k-1, ..., 0`, reading `k` times
and writing the first `k` bytes of the file in reverse order. -/
theorem EX02.reverseLoop_ok (env : EX02.Env) (b : List Byte) (param : Option CStr) :
    ∀ (k : Nat) (buf : Byte), k ≤ b.length →
      (∀ i, i < k → env.seekFails i = false ∧ env.readFails i = false) →
      (EX02.reverseLoop env b param k buf).2 = none ∧
      seekOffsets (EX02.reverseLoop env b param k buf).1 = (List.range k).reverse.map Int.ofNat ∧
      writtenBytes (EX02.reverseLoop env b param k buf).1 = (b.take k).reverse ∧
      directOf (EX02.reverseLoop env b param k buf).1 = (b.take k).reverse ∧
      printfs (EX02.reverseLoop env b param k buf).1 = [] ∧
      readCount (EX02.reverseLoop env b param k buf).1 = k := by
  intro k
  induction k with
  | zero =>
    intro buf _ _
    simp [EX02.reverseLoop, seekOffsets, writtenBytes, directOf, printfs, readCount]
  | succ k ih =>
    intro buf hk hok
    have h1 := hok k (Nat.lt_succ_self k)
    have hlt : k < b.length := hk
    obtain ⟨r1, r2, r3, r4, r6, r5⟩ := ih ((b.get? k).getD buf) (Nat.le_of_lt hlt)
      (fun i hi => hok i (Nat.lt_succ_of_lt hi))
    have hget : b[k]? = some b[k] := List.getElem?_eq_getElem hlt
    have htake : (b.take (k + 1)).reverse = b[k] :: (b.take k).reverse := by
      rw [List.take_succ, List.reverse_append]
      simp [hget]
    simp only [EX02.reverseLoop, h1.1, h1.2, if_false, Bool.false_eq_true, List.get?_eq_getElem?,
      hget, Option.getD_some] at r1 r2 r3 r4 r5 r6 ⊢
    refine ⟨r1, ?_, ?_, ?_, ?_, ?_⟩
    · simp [seekOffsets, r2, List.range_succ]
    · simp [writtenBytes, r3, htake, hget]
    · simp [directOf, STDOUT_FILENO, r4, htake, hget]
    · simp [printfs, r6]
    · simp [readCount, r5]


/-! ### Traces -/

/-- Bytes sent straight to standard output by two traces run one after the other. -/
theorem directOf_append (a b : List Event) : directOf (a ++ b) = directOf a ++ directOf b := by
  induction a with
  | nil => rfl
  | cons e a ih => cases e <;> simp [directOf, ih] <;> split <;> simp

/-- Texts printed by `printf` in two traces run one after the other. -/
theorem printfs_append (a b : List Event) : printfs (a ++ b) = printfs a ++ printfs b := by
  induction a with
  | nil => rfl
  | cons e a ih => cases e <;> simp [printfs, ih]

/-- Texts printed by `dprintf(1, ...)` in two traces run one after the other. -/
theorem dprintfLines_append (a b : List Event) :
    dprintfLines (a ++ b) = dprintfLines a ++ dprintfLines b := by
  induction a with
  | nil => rfl
  | cons e a ih =>
    cases e <;> simp [dprintfLines, ih]
    split <;> simp

/-- A trace none of whose calls sends anything towards standard output. -/
theorem silent_trace (a : List Event) (h : ∀ e ∈ a, e.isStdout = false) :
    directOf a = [] ∧ printfs a = [] ∧ dprintfLines a = [] := by
  induction a with
  | nil => exact ⟨rfl, rfl, rfl⟩
  | cons e a ih =>
    have he := h e (List.mem_cons_self _ _)
    obtain ⟨i1, i2, i3⟩ := ih (fun x hx => h x (List.mem_cons_of_mem _ hx))
    cases e <;> simp_all [directOf, printfs, dprintfLines, Event.isStdout]

/-- What a `printf` call sends and what it leaves in the buffer of stdio. -/
theorem stdoutFrom_printf (flush : Nat → Nat) (status : Status) (bs : List Byte)
    (t : List Event) (k : Nat) (pending : List Byte) :
    stdoutFrom flush status (Event.printf bs :: t) k pending =
      (pending ++ bs).take (flush k)
        ++ stdoutFrom flush status t (k + 1) ((pending ++ bs).drop (flush k)) := rfl

/-- While no `printf` is called, what reaches standard output is what the
calls send straight to it, and the buffer of stdio is untouched. -/
theorem stdoutFrom_direct (flush : Nat → Nat) (status : Status) (a r : List Event)
    (h : printfs a = []) (k : Nat) (pending : List Byte) :
    stdoutFrom flush status (a ++ r) k pending =
      directOf a ++ stdoutFrom flush status r k pending := by
  induction a with
  | nil => rfl
  | cons e a ih =>
    cases e with
    | printf bs => simp [printfs] at h
    | dprintf fd bs =>
      have ih1 := ih (by simpa [printfs] using h)
      by_cases hfd : fd = 1 <;> simp [stdoutFrom, directOf, hfd, ih1]
    | write fd bs =>
      have ih1 := ih (by simpa [printfs] using h)
      by_cases hfd : fd = 1 <;> simp [stdoutFrom, directOf, hfd, ih1]
    | _ =>
      have ih1 := ih (by simpa [printfs] using h)
      simp [stdoutFrom, directOf, ih1]

/-- Blocks allocated by two traces run one after the other. -/
theorem allocated_append (a b : List Event) : allocated (a ++ b) = allocated a ++ allocated b := by
  induction a with
  | nil => rfl
  | cons e a ih =>
    cases e with
    | strndup r => cases r <;> simp [allocated, ih]
    | _ => simp [allocated, ih]

/-- Blocks released by two traces run one after the other. -/
theorem freed_append (a b : List Event) : freed (a ++ b) = freed a ++ freed b := by
  induction a with
  | nil => rfl
  | cons e a ih => cases e <;> simp [freed, ih]

/-- The calls of `dup_optarg_str` touch no file, print nothing on standard
output and are not the usage message. -/
theorem dup_optarg_str_quiet (ok : Nat → Bool) (se : List Byte) (n : Nat)
    (a : Option (List Byte)) :
    (∀ e ∈ (dup_optarg_str ok se n a).1, e.isFileIO = false) ∧
      (∀ e ∈ (dup_optarg_str ok se n a).1, e.isStdout = false) ∧
      Event.dprintf STDERR BAD_USAGE ∉ (dup_optarg_str ok se n a).1 := by
  unfold dup_optarg_str
  cases a with
  | none => simp
  | some s => by_cases h : ok n = true <;> simp [h, Event.isStdout, Event.isFileIO]

/-- The call of `free_if_needed` touches no file and prints nothing. -/
theorem free_if_needed_quiet (q : Option CStr) :
    (∀ e ∈ free_if_needed q, e.isFileIO = false) ∧
      Event.dprintf STDERR BAD_USAGE ∉ free_if_needed q := by
  cases q <;> simp [free_if_needed, Event.isFileIO]

/-- A run that never calls `printf` and ends by `exit` puts on standard output
what its calls send straight to it. -/
theorem stdoutOf_direct (flush : Nat → Nat) (a : List Event) (code : Nat)
    (h : printfs a = []) : stdoutOf flush a (Status.exit code) = directOf a := by
  have := stdoutFrom_direct flush (Status.exit code) a [] h 0 []
  simpa [stdoutOf, stdoutFrom] using this

/-! ### Decimal numerals -/

/-- The byte of the decimal digit `k`. -/
theorem digit_byte (k : Nat) (hk : k < 10) : (ch (Nat.digitChar k)).toNat = 48 + k := by
  interval_cases k <;> rfl

/-- The number denoted when one more digit is appended. -/
theorem decimalValue_concat (s : List Byte) (d : Byte) :
    decimalValue (s ++ [d]) = 10 * decimalValue s + (d.toNat - 48) := by
  simp [decimalValue, List.foldl_append]

/-- The digits the conversion puts in front of those it already has are the
decimal numeral of the number converted. -/
theorem toDigitsCore_decimal : ∀ (fuel n : Nat) (ds : List Char), n < fuel →
    ∃ D : List Byte, (Nat.toDigitsCore 10 fuel n ds).map ch = D ++ ds.map ch ∧
      isDecimalOf D n := by
  intro fuel
  induction fuel with
  | zero => intro n ds h; exact absurd h (Nat.not_lt_zero _)
  | succ fuel ih =>
    intro n ds hn
    have hmod : n % 10 < 10 := Nat.mod_lt _ (by decide)
    have hd := digit_byte (n % 10) hmod
    by_cases h0 : n / 10 = 0
    · refine ⟨[ch (Nat.digitChar (n % 10))], ?_, ?_, ?_, ?_, ?_⟩
      · simp [Nat.toDigitsCore, h0]
      · simp
      · intro d hdm
        simp only [List.mem_singleton] at hdm
        subst hdm; omega
      · intro h
        simp only [List.head?_cons, Option.some.injEq] at h
        rw [h]
      · have h1 : decimalValue [ch (Nat.digitChar (n % 10))] =
            (ch (Nat.digitChar (n % 10))).toNat - 48 := by
          simp [decimalValue]
        rw [h1, hd]; omega
    · obtain ⟨D, hrun, hne, hdig, hhead, hval⟩ :=
        ih (n / 10) (Nat.digitChar (n % 10) :: ds) (by omega)
      refine ⟨D ++ [ch (Nat.digitChar (n % 10))], ?_, ?_, ?_, ?_, ?_⟩
      · simp [Nat.toDigitsCore, h0, hrun]
      · simp
      · intro d hdm
        rcases List.mem_append.1 hdm with h | h
        · exact hdig d h
        · simp only [List.mem_singleton] at h
          subst h; omega
      · intro h
        exfalso
        have hD : D.head? = some 48 := by
          cases D with
          | nil => exact absurd rfl hne
          | cons x xs => simpa using h
        have h48 : decimalValue [48] = 0 := rfl
        rw [hhead hD, h48] at hval
        omega
      · rw [decimalValue_concat, hval, hd]; omega

/-- The `%zu` conversion writes the decimal numeral of its argument. -/
theorem fmt_zu_decimal (n : Nat) : isDecimalOf (fmt_zu n) n := by
  obtain ⟨D, hrun, hdec⟩ := toDigitsCore_decimal (n + 1) n [] (Nat.lt_succ_self n)
  have : fmt_zu n = D := by
    simpa using hrun
  rw [this]; exact hdec

/-- The `%d` and `%lld` conversions write the decimal numeral of an argument
that is not negative. -/
theorem fmt_d_decimal (n : Nat) : isDecimalOf (fmt_d (n : Int)) n := fmt_zu_decimal n

/-! ### The reverse tool -/

/-- One turn of the option loop: the help exit, a turn that duplicates
nothing, or a turn that duplicates the input path. -/
theorem EX02.parseOptions_step_rev (env : EX02.Env) (argv0 : List Byte) (o : Opt)
    (rest : List Opt) (p : EX02.Params) (n : Nat) :
    (o.opt = 'h' ∧ EX02.parseOptions env argv0 (o :: rest) p n =
        (EX02.print_usage argv0 ++ free_if_needed p.bin_input_param, none)) ∨
    (o.opt ≠ 'h' ∧ (o.opt = 'i' → o.optarg = none) ∧ ∃ v,
        EX02.parseOptions env argv0 (o :: rest) p n =
          EX02.parseOptions env argv0 rest ⟨v, p.bin_input_param⟩ n) ∨
    (o.opt = 'i' ∧ ∃ a, o.optarg = some a ∧
        EX02.parseOptions env argv0 (o :: rest) p n =
          ((dup_optarg_str env.strndupOk env.strerror n (some a)).1 ++
            (EX02.parseOptions env argv0 rest
              ⟨p.is_verbose_mode, (dup_optarg_str env.strndupOk env.strerror n (some a)).2.2⟩
              (dup_optarg_str env.strndupOk env.strerror n (some a)).2.1).1,
           (EX02.parseOptions env argv0 rest
              ⟨p.is_verbose_mode, (dup_optarg_str env.strndupOk env.strerror n (some a)).2.2⟩
              (dup_optarg_str env.strndupOk env.strerror n (some a)).2.1).2)) := by
  by_cases hi : o.opt = 'i'
  · cases ha : o.optarg with
    | none =>
      refine Or.inr (Or.inl ⟨by rw [hi]; decide, fun _ => rfl, p.is_verbose_mode, ?_⟩)
      rw [EX02.parseOptions, if_pos hi]; simp only [ha]
    | some a =>
      refine Or.inr (Or.inr ⟨hi, a, rfl, ?_⟩)
      rw [EX02.parseOptions, if_pos hi]; simp only [ha]
  · by_cases hv : o.opt = 'v'
    · refine Or.inr (Or.inl ⟨by rw [hv]; decide, fun h => absurd h hi, 1, ?_⟩)
      rw [EX02.parseOptions, if_neg hi, if_pos hv]
    · by_cases hh : o.opt = 'h'
      · refine Or.inl ⟨hh, ?_⟩
        rw [EX02.parseOptions, if_neg hi, if_neg hv, if_pos hh]
      · refine Or.inr (Or.inl ⟨hh, fun h => absurd h hi, p.is_verbose_mode, ?_⟩)
        rw [EX02.parseOptions, if_neg hi, if_neg hv, if_neg hh]

/-- The usage text goes to standard output and touches no file. -/
theorem EX02.print_usage_quiet_rev (argv0 : List Byte) :
    (∀ e ∈ EX02.print_usage argv0, e.isFileIO = false) ∧
      Event.dprintf STDERR BAD_USAGE ∉ EX02.print_usage argv0 := by
  simp [EX02.print_usage, Event.isFileIO, STDERR]

/-- The option loop touches no file and never prints the usage-error message. -/
theorem EX02.parseOptions_quiet_rev (env : EX02.Env) (argv0 : List Byte) :
    ∀ (opts : List Opt) (p : EX02.Params) (n : Nat),
      (∀ e ∈ (EX02.parseOptions env argv0 opts p n).1, e.isFileIO = false) ∧
      Event.dprintf STDERR BAD_USAGE ∉ (EX02.parseOptions env argv0 opts p n).1 := by
  intro opts
  induction opts with
  | nil => intro p n; simp [EX02.parseOptions]
  | cons o rest ih =>
    intro p n
    rcases EX02.parseOptions_step_rev env argv0 o rest p n with
      ⟨_, heq⟩ | ⟨_, _, v, heq⟩ | ⟨_, a, _, heq⟩
    · have hf := free_if_needed_quiet p.bin_input_param
      have hu := EX02.print_usage_quiet_rev argv0
      rw [heq]
      simp only [List.mem_append, not_or]
      exact ⟨fun e he => he.elim (hu.1 e) (hf.1 e), hu.2, hf.2⟩
    · rw [heq]; exact ih _ _
    · have hd := dup_optarg_str_quiet env.strndupOk env.strerror n (some a)
      have hr := ih ⟨p.is_verbose_mode, (dup_optarg_str env.strndupOk env.strerror n (some a)).2.2⟩
        (dup_optarg_str env.strndupOk env.strerror n (some a)).2.1
      rw [heq]
      simp only [List.mem_append, not_or]
      exact ⟨fun e he => he.elim (hd.1 e) (hr.1 e), hd.2.2, hr.2⟩

/-- When the option loop ends without exiting, none of its calls sent anything
towards standard output. -/
theorem EX02.parseOptions_silent_rev (env : EX02.Env) (argv0 : List Byte) :
    ∀ (opts : List Opt) (p : EX02.Params) (n : Nat) (q : EX02.Params × Nat),
      (EX02.parseOptions env argv0 opts p n).2 = some q →
      ∀ e ∈ (EX02.parseOptions env argv0 opts p n).1, e.isStdout = false := by
  intro opts
  induction opts with
  | nil => intro p n q _ e he; simp [EX02.parseOptions] at he
  | cons o rest ih =>
    intro p n q
    rcases EX02.parseOptions_step_rev env argv0 o rest p n with
      ⟨_, heq⟩ | ⟨_, _, v, heq⟩ | ⟨_, a, _, heq⟩
    · rw [heq]; intro h; cases h
    · rw [heq]; exact ih _ _ q
    · have hd := dup_optarg_str_quiet env.strndupOk env.strerror n (some a)
      rw [heq]
      intro hq e he
      rcases List.mem_append.1 he with h | h
      · exact hd.2.1 e h
      · exact ih _ _ q hq e h

/-- The trace and the exit status of a run of the reverse tool in which the
open, the length query and every seek and read succeed. -/
theorem EX02.main_ok (env : EX02.Env) (argv0 : List Byte) (opts : List Opt)
    (t0 : List Event) (p : EX02.Params) (n0 : Nat) (c : CStr) (b : List Byte)
    (hparse : EX02.parseOptions env argv0 opts ⟨0, none⟩ 0 = (t0, some (p, n0)))
    (hparam : p.bin_input_param = some c)
    (hopen : env.file c.str = some b)
    (hsize : env.sizeFails = false)
    (hio : ∀ i, i < b.length → env.seekFails i = false ∧ env.readFails i = false) :
    EX02.main env argv0 opts =
      (t0 ++ ([Event.dprintf 1 (EX02.banner c.str p.is_verbose_mode), Event.sys_open c.str true,
            Event.lseek 0 Whence.SEEK_END b.length, Event.printf (EX02.header c.str)]
          ++ (EX02.reverseLoop env b (some c) b.length env.buffer).1
          ++ [Event.printf (ascii "\n"), Event.close, Event.free c.blk]),
        Status.exit 0) := by
  have hl := (EX02.reverseLoop_ok env b (some c) b.length env.buffer (Nat.le_refl _) hio).1
  simp [EX02.main, hparse, hparam, EX02.reverseFile, hopen, hsize, hl, free_if_needed,
    EXIT_SUCCESS]

/-- C2. Reverse tool core loop: when the open, the length query and every seek
and read succeed on a file of content `b` and length `n`, the loop seeks to the
offsets `n-1, ..., 0` once each, reads `n` times and writes `n` bytes to
standard output, the `k`-th being `b[n-1-k]`, so that the bytes written are
`reverse b`; a newline is then printed and the exit code is 0; an empty file
gives an empty loop. -/
theorem reverse_core_loop (env : EX02.Env) (argv0 : List Byte) (opts : List Opt)
    (t0 : List Event) (p : EX02.Params) (n0 : Nat) (c : CStr) (b : List Byte)
    (hparse : EX02.parseOptions env argv0 opts ⟨0, none⟩ 0 = (t0, some (p, n0)))
    (hparam : p.bin_input_param = some c)
    (hopen : env.file c.str = some b)
    (hsize : env.sizeFails = false)
    (hio : ∀ i, i < b.length → env.seekFails i = false ∧ env.readFails i = false) :
    ∃ loop : List Event,
      loop = (EX02.reverseLoop env b (some c) b.length env.buffer).1 ∧
      EX02.main env argv0 opts =
        (t0 ++ ([Event.dprintf 1 (EX02.banner c.str p.is_verbose_mode),
              Event.sys_open c.str true, Event.lseek 0 Whence.SEEK_END b.length,
              Event.printf (EX02.header c.str)]
            ++ loop ++ [Event.printf (ascii "\n"), Event.close, Event.free c.blk]),
          Status.exit 0) ∧
      seekOffsets loop = (List.range b.length).reverse.map Int.ofNat ∧
      readCount loop = b.length ∧
      writtenBytes loop = b.reverse ∧
      (writtenBytes loop).length = b.length ∧
      (∀ k, k < b.length → (writtenBytes loop)[k]? = b[b.length - 1 - k]?) ∧
      (b = [] → loop = []) := by
  obtain ⟨_, h2, h3, _, _, h5⟩ :=
    EX02.reverseLoop_ok env b (some c) b.length env.buffer (Nat.le_refl _) hio
  rw [List.take_length] at h3
  refine ⟨_, rfl, EX02.main_ok env argv0 opts t0 p n0 c b hparse hparam hopen hsize hio,
    h2, h5, h3, by rw [h3, List.length_reverse], ?_, ?_⟩
  · intro k hk
    rw [h3, List.getElem?_reverse hk]
  · intro hb; subst hb; rfl

/-- A sample run for C2. -/
theorem reverse_core_loop_witness :
    EX02.parseOptions EX02.envABC (ascii "rev") optsInput ⟨0, none⟩ 0 =
        ([Event.strndup (some 0)], some (⟨0, some ⟨0, ascii "f"⟩⟩, 1)) ∧
      writtenBytes (EX02.reverseLoop EX02.envABC (ascii "ABC") (some ⟨0, ascii "f"⟩) 3 0).1 =
        ascii "CBA" := by
  have hp : EX02.parseOptions EX02.envABC (ascii "rev") optsInput ⟨0, none⟩ 0 =
      ([Event.strndup (some 0)], some (⟨0, some ⟨0, ascii "f"⟩⟩, 1)) := by decide
  obtain ⟨loop, h1, _, _, _, h5, _⟩ :=
    reverse_core_loop EX02.envABC (ascii "rev") optsInput [Event.strndup (some 0)]
      ⟨0, some ⟨0, ascii "f"⟩⟩ 1 ⟨0, ascii "f"⟩ (ascii "ABC") hp rfl rfl rfl
      (fun _ _ => ⟨rfl, rfl⟩)
  exact ⟨hp, by rw [h1] at h5; exact h5⟩

/-- What the reverse tool puts on standard output in a run in which the open,
the length query and every seek and read succeed, however stdio empties its
buffer: the banner, then the part of the header line stdio sent during the
first `printf`, then the reversed bytes, then the rest of the header line and
the newline. -/
theorem EX02.main_stdout (env : EX02.Env) (argv0 : List Byte) (opts : List Opt)
    (t0 : List Event) (p : EX02.Params) (n0 : Nat) (c : CStr) (b : List Byte)
    (hparse : EX02.parseOptions env argv0 opts ⟨0, none⟩ 0 = (t0, some (p, n0)))
    (hparam : p.bin_input_param = some c)
    (hopen : env.file c.str = some b)
    (hsize : env.sizeFails = false)
    (hio : ∀ i, i < b.length → env.seekFails i = false ∧ env.readFails i = false)
    (flush : Nat → Nat) :
    stdoutOf flush (EX02.main env argv0 opts).1 (EX02.main env argv0 opts).2 =
      EX02.banner c.str p.is_verbose_mode ++ (EX02.header c.str).take (flush 0) ++ b.reverse
        ++ (EX02.header c.str).drop (flush 0) ++ ascii "\n" := by
  obtain ⟨_, _, _, h4, h5, _⟩ :=
    EX02.reverseLoop_ok env b (some c) b.length env.buffer (Nat.le_refl _) hio
  rw [List.take_length] at h4
  have h0 : ∀ e ∈ t0, e.isStdout = false := by
    have := EX02.parseOptions_silent_rev env argv0 opts ⟨0, none⟩ 0 (p, n0)
    rw [hparse] at this
    exact this rfl
  obtain ⟨d0, p0, _⟩ := silent_trace t0 h0
  rw [EX02.main_ok env argv0 opts t0 p n0 c b hparse hparam hopen hsize hio]
  simp only [stdoutOf]
  rw [stdoutFrom_direct flush _ t0 _ p0, d0, List.nil_append]
  have e1 : [Event.dprintf 1 (EX02.banner c.str p.is_verbose_mode), Event.sys_open c.str true,
        Event.lseek 0 Whence.SEEK_END b.length, Event.printf (EX02.header c.str)]
      ++ (EX02.reverseLoop env b (some c) b.length env.buffer).1
      ++ [Event.printf (ascii "\n"), Event.close, Event.free c.blk] =
      [Event.dprintf 1 (EX02.banner c.str p.is_verbose_mode), Event.sys_open c.str true,
        Event.lseek 0 Whence.SEEK_END b.length]
      ++ (Event.printf (EX02.header c.str)
        :: ((EX02.reverseLoop env b (some c) b.length env.buffer).1
          ++ (Event.printf (ascii "\n") :: [Event.close, Event.free c.blk]))) := by
    simp
  have e2 : ∀ (k : Nat) (pend : List Byte),
      stdoutFrom flush (Status.exit 0) [Event.close, Event.free c.blk] k pend = pend :=
    fun _ _ => rfl
  rw [e1, stdoutFrom_direct flush _ [Event.dprintf 1 (EX02.banner c.str p.is_verbose_mode),
      Event.sys_open c.str true, Event.lseek 0 Whence.SEEK_END b.length] _ rfl, stdoutFrom_printf,
    stdoutFrom_direct flush _ _ _ h5, h4, stdoutFrom_printf, e2]
  simp [directOf, List.take_append_drop]

/-- C3, as stated, fails: on an empty file a successful run puts more than a
newline on standard output, whether stdio sends every text at once (a
terminal) or only when the program ends (a pipe). -/
theorem reverse_output_not_bare :
    (EX02.main EX02.envEmpty (ascii "rev") optsInput).2 = Status.exit 0 ∧
      stdoutOf flushEachCall (EX02.main EX02.envEmpty (ascii "rev") optsInput).1
          (EX02.main EX02.envEmpty (ascii "rev") optsInput).2 ≠
        ([] : List Byte).reverse ++ ascii "\n" ∧
      stdoutOf flushAtExit (EX02.main EX02.envEmpty (ascii "rev") optsInput).1
          (EX02.main EX02.envEmpty (ascii "rev") optsInput).2 ≠
        ([] : List Byte).reverse ++ ascii "\n" := by
  decide

/-- C3, amended. Reverse tool complete output: in a run in which the open, the
length query and every seek and read succeed, and in which stdio sends the
header line during the `printf` that prints it (standard output unbuffered or
line buffered, as on a terminal), standard output receives exactly the
parameter banner (`** PARAMS **`, the input path, the verbose flag in decimal,
an empty line), the line `Contents of the file PATH in reverse order:`, then
`reverse b`, then one newline, and the exit code is 0. -/
theorem reverse_complete_output (env : EX02.Env) (argv0 : List Byte) (opts : List Opt)
    (t0 : List Event) (p : EX02.Params) (n0 : Nat) (c : CStr) (b : List Byte)
    (flush : Nat → Nat)
    (hparse : EX02.parseOptions env argv0 opts ⟨0, none⟩ 0 = (t0, some (p, n0)))
    (hparam : p.bin_input_param = some c)
    (hopen : env.file c.str = some b)
    (hsize : env.sizeFails = false)
    (hio : ∀ i, i < b.length → env.seekFails i = false ∧ env.readFails i = false)
    (hflush : (ascii "Contents of the file " ++ c.str ++ ascii " in reverse order:\n").length
      ≤ flush 0) :
    stdoutOf flush (EX02.main env argv0 opts).1 (EX02.main env argv0 opts).2 =
        ascii "** PARAMS **\n" ++ ascii "input   : " ++ c.str ++ ascii "\n"
          ++ ascii "verbose : " ++ fmt_d p.is_verbose_mode ++ ascii "\n\n"
          ++ ascii "Contents of the file " ++ c.str ++ ascii " in reverse order:\n"
          ++ b.reverse ++ ascii "\n" ∧
      isDecimalOf (fmt_d p.is_verbose_mode) p.is_verbose_mode ∧
      (EX02.main env argv0 opts).2 = Status.exit 0 := by
  have hi : ∀ t : List Byte, fmt_s8 (ascii "input") ++ (ascii ": " ++ t) = ascii "input   : " ++ t :=
    fun _ => rfl
  have hv : ∀ t : List Byte,
      fmt_s8 (ascii "verbose") ++ (ascii ": " ++ t) = ascii "verbose : " ++ t :=
    fun _ => rfl
  refine ⟨?_, fmt_d_decimal _, ?_⟩
  · rw [EX02.main_stdout env argv0 opts t0 p n0 c b hparse hparam hopen hsize hio flush]
    have hh : EX02.header c.str =
        ascii "Contents of the file " ++ c.str ++ ascii " in reverse order:\n" := rfl
    rw [hh, List.take_of_length_le hflush, List.drop_of_length_le hflush]
    simp only [EX02.banner, List.append_assoc, List.append_nil, hi, hv]
  · rw [EX02.main_ok env argv0 opts t0 p n0 c b hparse hparam hopen hsize hio]

/-- A sample run for C3, amended. -/
theorem reverse_complete_output_witness :
    EX02.parseOptions EX02.envABC (ascii "rev") optsInput ⟨0, none⟩ 0 =
        ([Event.strndup (some 0)], some (⟨0, some ⟨0, ascii "f"⟩⟩, 1)) ∧
      stdoutOf flushEachCall (EX02.main EX02.envABC (ascii "rev") optsInput).1
          (EX02.main EX02.envABC (ascii "rev") optsInput).2 =
        ascii "** PARAMS **\ninput   : f\nverbose : 0\n\nContents of the file f in reverse order:\nCBA\n" := by
  have hp : EX02.parseOptions EX02.envABC (ascii "rev") optsInput ⟨0, none⟩ 0 =
      ([Event.strndup (some 0)], some (⟨0, some ⟨0, ascii "f"⟩⟩, 1)) := by decide
  refine ⟨hp, ?_⟩
  rw [(reverse_complete_output EX02.envABC (ascii "rev") optsInput [Event.strndup (some 0)]
      ⟨0, some ⟨0, ascii "f"⟩⟩ 1 ⟨0, ascii "f"⟩ (ascii "ABC") flushEachCall hp rfl rfl rfl
      (fun _ _ => ⟨rfl, rfl⟩) (by decide)).1]
  decide

/-- The same run with standard output to a pipe: the reversed bytes come
before the header line, which stdio sends only when the program ends. -/
theorem EX02.output_on_pipe :
    stdoutOf flushAtExit (EX02.main EX02.envABC (ascii "rev") optsInput).1
        (EX02.main EX02.envABC (ascii "rev") optsInput).2 =
      ascii "** PARAMS **\ninput   : f\nverbose : 0\n\nCBAContents of the file f in reverse order:\n\n" := by
  decide

/-! ### Usage validation -/

/-- The help option is seen in a list when it is its head or is seen in its tail. -/
theorem helpSeen_cons (o : Opt) (rest : List Opt) :
    helpSeen (o :: rest) ↔ o.opt = 'h' ∨ helpSeen rest := by
  simp [helpSeen]

/-- An option is supplied in a list when its head supplies it or its tail does. -/
theorem supplied_cons (c : Char) (o : Opt) (rest : List Opt) :
    supplied c (o :: rest) ↔ (o.opt = c ∧ o.optarg ≠ none) ∨ supplied c rest := by
  simp [supplied]

/-- A `dup_optarg_str` whose `strndup` succeeds does not return `NULL`. -/
theorem dup_optarg_str_ok (ok : Nat → Bool) (se : List Byte) (n : Nat) (a : List Byte)
    (h : ok n = true) : (dup_optarg_str ok se n (some a)).2.2 ≠ none := by
  simp [dup_optarg_str, h]

/-- Without the help option the option loop of the reverse tool ends without
exiting; when every duplication succeeds the input parameter is then set
exactly when it was set before or `-i` was given. -/
theorem EX02.parseOptions_param_rev (env : EX02.Env) (argv0 : List Byte)
    (hok : ∀ k, env.strndupOk k = true) :
    ∀ (opts : List Opt) (p : EX02.Params) (n : Nat), ¬ helpSeen opts →
      ∃ q, (EX02.parseOptions env argv0 opts p n).2 = some q ∧
        (q.1.bin_input_param ≠ none ↔ (p.bin_input_param ≠ none ∨ supplied 'i' opts)) := by
  intro opts
  induction opts with
  | nil => intro p n _; exact ⟨(p, n), rfl, by simp [supplied]⟩
  | cons o rest ih =>
    intro p n hh
    rw [helpSeen_cons, not_or] at hh
    rcases EX02.parseOptions_step_rev env argv0 o rest p n with
      ⟨h, _⟩ | ⟨_, hi, v, heq⟩ | ⟨hi, a, ha, heq⟩
    · exact absurd h hh.1
    · obtain ⟨q, hq, hiff⟩ := ih ⟨v, p.bin_input_param⟩ n hh.2
      refine ⟨q, by rw [heq]; exact hq, ?_⟩
      rw [hiff, supplied_cons]
      constructor
      · rintro (h | h)
        · exact Or.inl h
        · exact Or.inr (Or.inr h)
      · rintro (h | ⟨h1, h2⟩ | h)
        · exact Or.inl h
        · exact absurd (hi h1) h2
        · exact Or.inr h
    · obtain ⟨q, hq, hiff⟩ := ih
        ⟨p.is_verbose_mode, (dup_optarg_str env.strndupOk env.strerror n (some a)).2.2⟩
        (dup_optarg_str env.strndupOk env.strerror n (some a)).2.1 hh.2
      refine ⟨q, by rw [heq]; exact hq, ?_⟩
      have hd := dup_optarg_str_ok env.strndupOk env.strerror n a (hok n)
      rw [hiff, supplied_cons]
      constructor
      · intro _; exact Or.inr (Or.inl ⟨hi, by rw [ha]; simp⟩)
      · intro _; exact Or.inl hd

/-- The business part of the reverse tool always calls `open`. -/
theorem EX02.reverseFile_opens (env : EX02.Env) (v : Nat) (c : CStr) :
    ∃ e ∈ (EX02.reverseFile env v c).1, e.isFileIO = true := by
  unfold EX02.reverseFile
  cases hf : env.file c.str with
  | none => exact ⟨Event.sys_open c.str false, by simp, rfl⟩
  | some b =>
    refine ⟨Event.sys_open c.str true, ?_, rfl⟩
    cases hs : env.sizeFails with
    | true => simp
    | false =>
      cases hl : (EX02.reverseLoop env b (some c) b.length env.buffer).2 <;> simp [hl]

/-- Usage validation of the reverse tool, given how the option loop ended. -/
theorem EX02.usage_iff_rev (env : EX02.Env) (argv0 : List Byte) (opts : List Opt)
    (q : EX02.Params × Nat)
    (hq : (EX02.parseOptions env argv0 opts ⟨0, none⟩ 0).2 = some q) :
    isUsageError (EX02.main env argv0 opts).1 (EX02.main env argv0 opts).2 ↔
      q.1.bin_input_param = none := by
  have hquiet := EX02.parseOptions_quiet_rev env argv0 opts ⟨0, none⟩ 0
  obtain ⟨p, n⟩ := q
  cases hp : p.bin_input_param with
  | none =>
    simp only [iff_true]
    simp only [EX02.main, hq, hp, free_if_needed, List.append_nil]
    refine ⟨by simp, rfl, ?_⟩
    intro e he
    rw [List.mem_append] at he
    rcases he with he | he
    · exact hquiet.1 e he
    · simp at he; subst he; rfl
  | some c =>
    simp only [iff_false, reduceCtorEq]
    rintro ⟨_, _, h3⟩
    obtain ⟨e, he, hio⟩ := EX02.reverseFile_opens env p.is_verbose_mode c
    have := h3 e (by simp only [EX02.main, hq, hp]; exact List.mem_append_right _ he)
    rw [hio] at this
    cases this

/-- One turn of the option loop: the help exit, a turn that duplicates
nothing, or a turn that duplicates the directory path. -/
theorem EX03.parseOptions_step_ls (env : EX03.Env) (argv0 : List Byte) (o : Opt)
    (rest : List Opt) (p : EX03.Params) (n : Nat) :
    (o.opt = 'h' ∧ EX03.parseOptions env argv0 (o :: rest) p n =
        (EX03.print_usage argv0 ++ free_if_needed p.bin_directory_param, none)) ∨
    (o.opt ≠ 'h' ∧ (o.opt = 'd' → o.optarg = none) ∧ ∃ v,
        EX03.parseOptions env argv0 (o :: rest) p n =
          EX03.parseOptions env argv0 rest ⟨v, p.bin_directory_param⟩ n) ∨
    (o.opt = 'd' ∧ ∃ a, o.optarg = some a ∧
        EX03.parseOptions env argv0 (o :: rest) p n =
          ((dup_optarg_str env.strndupOk env.strerror n (some a)).1 ++
            (EX03.parseOptions env argv0 rest
              ⟨p.is_verbose_mode, (dup_optarg_str env.strndupOk env.strerror n (some a)).2.2⟩
              (dup_optarg_str env.strndupOk env.strerror n (some a)).2.1).1,
           (EX03.parseOptions env argv0 rest
              ⟨p.is_verbose_mode, (dup_optarg_str env.strndupOk env.strerror n (some a)).2.2⟩
              (dup_optarg_str env.strndupOk env.strerror n (some a)).2.1).2)) := by
  by_cases hi : o.opt = 'd'
  · cases ha : o.optarg with
    | none =>
      refine Or.inr (Or.inl ⟨by rw [hi]; decide, fun _ => rfl, p.is_verbose_mode, ?_⟩)
      rw [EX03.parseOptions, if_pos hi]; simp only [ha]
    | some a =>
      refine Or.inr (Or.inr ⟨hi, a, rfl, ?_⟩)
      rw [EX03.parseOptions, if_pos hi]; simp only [ha]
  · by_cases hv : o.opt = 'v'
    · refine Or.inr (Or.inl ⟨by rw [hv]; decide, fun h => absurd h hi, 1, ?_⟩)
      rw [EX03.parseOptions, if_neg hi, if_pos hv]
    · by_cases hh : o.opt = 'h'
      · refine Or.inl ⟨hh, ?_⟩
        rw [EX03.parseOptions, if_neg hi, if_neg hv, if_pos hh]
      · refine Or.inr (Or.inl ⟨hh, fun h => absurd h hi, p.is_verbose_mode, ?_⟩)
        rw [EX03.parseOptions, if_neg hi, if_neg hv, if_neg hh]

/-- The usage text goes to standard output and touches no file. -/
theorem EX03.print_usage_quiet_ls (argv0 : List Byte) :
    (∀ e ∈ EX03.print_usage argv0, e.isFileIO = false) ∧
      Event.dprintf STDERR BAD_USAGE ∉ EX03.print_usage argv0 := by
  simp [EX03.print_usage, Event.isFileIO, STDERR]

/-- The option loop touches no file and never prints the usage-error message. -/
theorem EX03.parseOptions_quiet_ls (env : EX03.Env) (argv0 : List Byte) :
    ∀ (opts : List Opt) (p : EX03.Params) (n : Nat),
      (∀ e ∈ (EX03.parseOptions env argv0 opts p n).1, e.isFileIO = false) ∧
      Event.dprintf STDERR BAD_USAGE ∉ (EX03.parseOptions env argv0 opts p n).1 := by
  intro opts
  induction opts with
  | nil => intro p n; simp [EX03.parseOptions]
  | cons o rest ih =>
    intro p n
    rcases EX03.parseOptions_step_ls env argv0 o rest p n with
      ⟨_, heq⟩ | ⟨_, _, v, heq⟩ | ⟨_, a, _, heq⟩
    · have hf := free_if_needed_quiet p.bin_directory_param
      have hu := EX03.print_usage_quiet_ls argv0
      rw [heq]
      simp only [List.mem_append, not_or]
      exact ⟨fun e he => he.elim (hu.1 e) (hf.1 e), hu.2, hf.2⟩
    · rw [heq]; exact ih _ _
    · have hd := dup_optarg_str_quiet env.strndupOk env.strerror n (some a)
      have hr := ih ⟨p.is_verbose_mode, (dup_optarg_str env.strndupOk env.strerror n (some a)).2.2⟩
        (dup_optarg_str env.strndupOk env.strerror n (some a)).2.1
      rw [heq]
      simp only [List.mem_append, not_or]
      exact ⟨fun e he => he.elim (hd.1 e) (hr.1 e), hd.2.2, hr.2⟩

/-- Without the help option the option loop of the lister ends without
exiting; when every duplication succeeds the directory parameter is then set
exactly when it was set before or `-d` was given. -/
theorem EX03.parseOptions_param_ls (env : EX03.Env) (argv0 : List Byte)
    (hok : ∀ k, env.strndupOk k = true) :
    ∀ (opts : List Opt) (p : EX03.Params) (n : Nat), ¬ helpSeen opts →
      ∃ q, (EX03.parseOptions env argv0 opts p n).2 = some q ∧
        (q.1.bin_directory_param ≠ none ↔ (p.bin_directory_param ≠ none ∨ supplied 'd' opts)) := by
  intro opts
  induction opts with
  | nil => intro p n _; exact ⟨(p, n), rfl, by simp [supplied]⟩
  | cons o rest ih =>
    intro p n hh
    rw [helpSeen_cons, not_or] at hh
    rcases EX03.parseOptions_step_ls env argv0 o rest p n with
      ⟨h, _⟩ | ⟨_, hi, v, heq⟩ | ⟨hi, a, ha, heq⟩
    · exact absurd h hh.1
    · obtain ⟨q, hq, hiff⟩ := ih ⟨v, p.bin_directory_param⟩ n hh.2
      refine ⟨q, by rw [heq]; exact hq, ?_⟩
      rw [hiff, supplied_cons]
      constructor
      · rintro (h | h)
        · exact Or.inl h
        · exact Or.inr (Or.inr h)
      · rintro (h | ⟨h1, h2⟩ | h)
        · exact Or.inl h
        · exact absurd (hi h1) h2
        · exact Or.inr h
    · obtain ⟨q, hq, hiff⟩ := ih
        ⟨p.is_verbose_mode, (dup_optarg_str env.strndupOk env.strerror n (some a)).2.2⟩
        (dup_optarg_str env.strndupOk env.strerror n (some a)).2.1 hh.2
      refine ⟨q, by rw [heq]; exact hq, ?_⟩
      have hd := dup_optarg_str_ok env.strndupOk env.strerror n a (hok n)
      rw [hiff, supplied_cons]
      constructor
      · intro _; exact Or.inr (Or.inl ⟨hi, by rw [ha]; simp⟩)
      · intro _; exact Or.inl hd

/-- When the option loop of the lister ends without exiting, none of its calls
sent anything towards standard output. -/
theorem EX03.parseOptions_silent_ls (env : EX03.Env) (argv0 : List Byte) :
    ∀ (opts : List Opt) (p : EX03.Params) (n : Nat) (q : EX03.Params × Nat),
      (EX03.parseOptions env argv0 opts p n).2 = some q →
      ∀ e ∈ (EX03.parseOptions env argv0 opts p n).1, e.isStdout = false := by
  intro opts
  induction opts with
  | nil => intro p n q _ e he; simp [EX03.parseOptions] at he
  | cons o rest ih =>
    intro p n q
    rcases EX03.parseOptions_step_ls env argv0 o rest p n with
      ⟨_, heq⟩ | ⟨_, _, v, heq⟩ | ⟨_, a, _, heq⟩
    · rw [heq]; intro h; cases h
    · rw [heq]; exact ih _ _ q
    · have hd := dup_optarg_str_quiet env.strndupOk env.strerror n (some a)
      rw [heq]
      intro hq e he
      rcases List.mem_append.1 he with h | h
      · exact hd.2.1 e h
      · exact ih _ _ q hq e h

/-- Usage validation of the lister, given how the option loop ended. -/
theorem EX03.usage_iff_ls (env : EX03.Env) (argv0 : List Byte) (opts : List Opt)
    (q : EX03.Params × Nat)
    (hq : (EX03.parseOptions env argv0 opts ⟨0, none⟩ 0).2 = some q) :
    isUsageError (EX03.main env argv0 opts).1 (EX03.main env argv0 opts).2 ↔
      q.1.bin_directory_param = none := by
  have hquiet := EX03.parseOptions_quiet_ls env argv0 opts ⟨0, none⟩ 0
  obtain ⟨p, n⟩ := q
  cases hp : p.bin_directory_param with
  | none =>
    simp only [iff_true]
    simp only [EX03.main, hq, hp, free_if_needed, List.append_nil]
    refine ⟨by simp, rfl, ?_⟩
    intro e he
    rw [List.mem_append] at he
    rcases he with he | he
    · exact hquiet.1 e he
    · simp at he; subst he; rfl
  | some c =>
    simp only [iff_false, reduceCtorEq]
    rintro ⟨_, _, h3⟩
    have hopen : ∃ ok, Event.opendir c.str ok ∈ (EX03.main env argv0 opts).1 := by
      simp only [EX03.main, hq, hp]
      cases hd : env.dir c.str with
      | none => exact ⟨false, by simp⟩
      | some names =>
        refine ⟨true, ?_⟩
        cases hl : (EX03.listEntries env c.str names).2 <;> simp [hl]
    obtain ⟨ok, hmem⟩ := hopen
    have := h3 _ hmem
    cases this

/-! ### The lister -/

/-- The test `mode & bit` of a single bit is the test of that bit. -/
theorem EX03.permChar_testBit (mode i : Nat) (c : Char) :
    EX03.permChar mode (2 ^ i) c = if mode.testBit i = true then ch c else ch '-' := by
  unfold EX03.permChar
  rw [Nat.and_two_pow]
  cases mode.testBit i <;> simp

/-- The file type bits of a mode, kept by the mask 0170000. -/
theorem EX03.and_mask (m : Nat) : m &&& 0o170000 = 2 ^ 12 * (m / 2 ^ 12 % 2 ^ 4) := by
  apply Nat.eq_of_testBit_eq
  intro i
  have h1 : (0o170000 : Nat) = 2 ^ 12 * (2 ^ 4 - 1) := by norm_num
  rw [Nat.testBit_and, h1, Nat.testBit_mul_pow_two, Nat.testBit_mul_pow_two,
    Nat.testBit_two_pow_sub_one, Nat.testBit_mod_two_pow, ← Nat.shiftRight_eq_div_pow,
    Nat.testBit_shiftRight]
  by_cases h : 12 ≤ i
  · have : 12 + (i - 12) = i := by omega
    simp only [ge_iff_le, h, decide_True, Bool.true_and, this]
    cases m.testBit i <;> simp
  · simp [h]

/-- A mode is that of a directory when its file type bits, the bits 12 to 15,
hold the value 4. -/
theorem EX03.S_ISDIR_iff (m : Nat) : EX03.S_ISDIR m = true ↔ m / 4096 % 16 = 4 := by
  unfold EX03.S_ISDIR
  rw [EX03.and_mask]
  simp only [beq_iff_eq]
  constructor <;> intro h <;> omega

/-- The loop over the entries of a directory when no owner or group lookup
fails: it ends normally, having printed with `dprintf` the line of every entry
on which `stat` succeeds, in the order of the entries, and nothing else. -/
theorem EX03.listEntries_lines (env : EX03.Env) (dirpath : List Byte) :
    ∀ names : List (List Byte),
      (∀ name ∈ names, ∀ st,
        env.stat ((dirpath ++ ascii "/" ++ name).take 4095) = some st →
        env.pw_name st.st_uid ≠ none ∧ env.gr_name st.st_gid ≠ none) →
      (EX03.listEntries env dirpath names).2 = none ∧
      dprintfLines (EX03.listEntries env dirpath names).1
        = names.filterMap (EX03.lineOf env dirpath) ∧
      directOf (EX03.listEntries env dirpath names).1
        = (names.filterMap (EX03.lineOf env dirpath)).flatten ∧
      printfs (EX03.listEntries env dirpath names).1 = [] := by
  intro names
  induction names with
  | nil => intro _; simp [EX03.listEntries, dprintfLines, directOf, printfs]
  | cons name rest ih =>
    intro h
    obtain ⟨i1, i2, i3, i4⟩ := ih (fun x hx => h x (List.mem_cons_of_mem _ hx))
    cases hs : env.stat ((dirpath ++ ascii "/" ++ name).take 4095) with
    | none =>
      have hs1 : env.stat ((dirpath ++ ascii "/" ++ name).take (MAX_PATH_LENGTH - 1)) = none := hs
      have hl : EX03.lineOf env dirpath name = none := by simp only [EX03.lineOf, hs]
      simp only [EX03.listEntries, hs1, List.filterMap_cons, hl]
      refine ⟨i1, ?_, ?_, ?_⟩
      · simpa [dprintfLines] using i2
      · simpa [directOf] using i3
      · simpa [printfs] using i4
    | some st =>
      have hs1 : env.stat ((dirpath ++ ascii "/" ++ name).take (MAX_PATH_LENGTH - 1)) = some st :=
        hs
      obtain ⟨ho, hg⟩ := h name (List.mem_cons_self _ _) st hs
      obtain ⟨owner, hown⟩ := Option.ne_none_iff_exists'.1 ho
      obtain ⟨group, hgrp⟩ := Option.ne_none_iff_exists'.1 hg
      have hl : EX03.lineOf env dirpath name =
          some (EX03.permissions st.st_mode ++ ascii " " ++ owner ++ ascii " " ++ group
            ++ ascii " " ++ fmt_d st.st_size ++ ascii " " ++ env.strftime st.st_mtime
            ++ ascii " " ++ name ++ ascii "\n") := by
        simp only [EX03.lineOf, hs, hown, hgrp]
      simp only [EX03.listEntries, hs1, hown, hgrp, List.filterMap_cons, hl, EX03.entryLine]
      refine ⟨i1, ?_, ?_, ?_⟩
      · simp [dprintfLines, i2]
      · simp [directOf, i3]
      · simp [printfs, i4]

/-- C4. Lister permission string: when the directory opens and no owner or
group lookup fails, the lister exits with code 0 having printed, for every
entry on which `stat` succeeds and in the order of the entries, one line made
of the permission string of the mode `stat` returned, the owner, the group,
the size in decimal, the modification time and the entry name, separated by
spaces, and nothing for the other entries. For every mode the permission
string has exactly 10 characters: `d` for a directory and `-` otherwise, then
`r`, `w`, `x` for owner, group and other, each letter present exactly when the
mode bit 0400, 0200, 0100, 0040, 0020, 0010, 0004, 0002, 0001 is set and `-`
otherwise; mode 0644 of a regular file gives `-rw-r--r--`. -/
theorem lister_permission_string (env : EX03.Env) (argv0 : List Byte) (opts : List Opt)
    (t0 : List Event) (p : EX03.Params) (n0 : Nat) (c : CStr) (names : List (List Byte))
    (flush : Nat → Nat)
    (hparse : EX03.parseOptions env argv0 opts ⟨0, none⟩ 0 = (t0, some (p, n0)))
    (hparam : p.bin_directory_param = some c)
    (hdir : env.dir c.str = some names)
    (hlookup : ∀ name ∈ names, ∀ st,
      env.stat ((c.str ++ ascii "/" ++ name).take 4095) = some st →
      env.pw_name st.st_uid ≠ none ∧ env.gr_name st.st_gid ≠ none) :
    (EX03.main env argv0 opts).2 = Status.exit 0 ∧
      dprintfLines (EX03.main env argv0 opts).1 = names.filterMap (EX03.lineOf env c.str) ∧
      stdoutOf flush (EX03.main env argv0 opts).1 (EX03.main env argv0 opts).2 =
        (names.filterMap (EX03.lineOf env c.str)).flatten ∧
      (∀ name, env.stat ((c.str ++ ascii "/" ++ name).take 4095) = none →
        EX03.lineOf env c.str name = none) ∧
      (∀ name st owner group,
        env.stat ((c.str ++ ascii "/" ++ name).take 4095) = some st →
        env.pw_name st.st_uid = some owner → env.gr_name st.st_gid = some group →
        EX03.lineOf env c.str name =
          some (EX03.permissions st.st_mode ++ ascii " " ++ owner ++ ascii " " ++ group
            ++ ascii " " ++ fmt_d st.st_size ++ ascii " " ++ env.strftime st.st_mtime
            ++ ascii " " ++ name ++ ascii "\n")) ∧
      (∀ n : Nat, isDecimalOf (fmt_d (n : Int)) n) ∧
      (∀ m : Nat,
        (EX03.permissions m).length = 10 ∧
        (EX03.permissions m)[0]? = some (if EX03.S_ISDIR m = true then ch 'd' else ch '-') ∧
        (EX03.permissions m)[1]? = some (if m.testBit 8 = true then ch 'r' else ch '-') ∧
        (EX03.permissions m)[2]? = some (if m.testBit 7 = true then ch 'w' else ch '-') ∧
        (EX03.permissions m)[3]? = some (if m.testBit 6 = true then ch 'x' else ch '-') ∧
        (EX03.permissions m)[4]? = some (if m.testBit 5 = true then ch 'r' else ch '-') ∧
        (EX03.permissions m)[5]? = some (if m.testBit 4 = true then ch 'w' else ch '-') ∧
        (EX03.permissions m)[6]? = some (if m.testBit 3 = true then ch 'x' else ch '-') ∧
        (EX03.permissions m)[7]? = some (if m.testBit 2 = true then ch 'r' else ch '-') ∧
        (EX03.permissions m)[8]? = some (if m.testBit 1 = true then ch 'w' else ch '-') ∧
        (EX03.permissions m)[9]? = some (if m.testBit 0 = true then ch 'x' else ch '-')) ∧
      (∀ m : Nat, EX03.S_ISDIR m = true ↔ m / 4096 % 16 = 4) ∧
      (2 ^ 8 = 0o400 ∧ 2 ^ 7 = 0o200 ∧ 2 ^ 6 = 0o100 ∧ 2 ^ 5 = 0o040 ∧ 2 ^ 4 = 0o020 ∧
        2 ^ 3 = 0o010 ∧ 2 ^ 2 = 0o004 ∧ 2 ^ 1 = 0o002 ∧ 2 ^ 0 = 0o001) ∧
      EX03.permissions 0o100644 = ascii "-rw-r--r--" := by
  obtain ⟨l1, l2, l3, l4⟩ := EX03.listEntries_lines env c.str names hlookup
  have h0 : ∀ e ∈ t0, e.isStdout = false := by
    have := EX03.parseOptions_silent_ls env argv0 opts ⟨0, none⟩ 0 (p, n0)
    rw [hparse] at this
    exact this rfl
  obtain ⟨d0, p0, q0⟩ := silent_trace t0 h0
  have hmain : EX03.main env argv0 opts =
      (t0 ++ [Event.opendir c.str true] ++ (EX03.listEntries env c.str names).1
        ++ [Event.closedir] ++ [Event.free c.blk], Status.exit 0) := by
    simp only [EX03.main, hparse, hparam, hdir, l1, free_if_needed, EXIT_SUCCESS]
  refine ⟨by rw [hmain], ?_, ?_, ?_, ?_, fmt_d_decimal, ?_, ?_, by decide, by decide⟩
  · rw [hmain]
    simp [dprintfLines_append, q0, l2, dprintfLines]
  · rw [hmain]
    rw [stdoutOf_direct flush _ 0 (by simp [printfs_append, p0, l4, printfs])]
    simp [directOf_append, d0, l3, directOf]
  · intro name hs
    simp only [EX03.lineOf, hs]
  · intro name st owner group hs ho hg
    simp only [EX03.lineOf, hs, ho, hg]
  · intro m
    exact ⟨rfl, rfl, congrArg some (EX03.permChar_testBit m 8 'r'),
      congrArg some (EX03.permChar_testBit m 7 'w'),
      congrArg some (EX03.permChar_testBit m 6 'x'),
      congrArg some (EX03.permChar_testBit m 5 'r'),
      congrArg some (EX03.permChar_testBit m 4 'w'),
      congrArg some (EX03.permChar_testBit m 3 'x'),
      congrArg some (EX03.permChar_testBit m 2 'r'),
      congrArg some (EX03.permChar_testBit m 1 'w'),
      congrArg some (EX03.permChar_testBit m 0 'x')⟩
  · intro m
    exact EX03.S_ISDIR_iff m

/-- A sample run for C4. -/
theorem lister_permission_string_witness :
    EX03.parseOptions EX03.envDir (ascii "ls") optsDir ⟨0, none⟩ 0 =
        ([Event.strndup (some 0)], some (⟨0, some ⟨0, ascii "d"⟩⟩, 1)) ∧
      dprintfLines (EX03.main EX03.envDir (ascii "ls") optsDir).1 =
        [ascii "drwxr-xr-x root root 4096 24/01/01 @ 00:00 .\n",
         ascii "drwxr-xr-x root root 4096 24/01/01 @ 00:00 ..\n",
         ascii "-rw-r--r-- root root 5 24/01/01 @ 00:00 a.txt\n"] := by
  have hp : EX03.parseOptions EX03.envDir (ascii "ls") optsDir ⟨0, none⟩ 0 =
      ([Event.strndup (some 0)], some (⟨0, some ⟨0, ascii "d"⟩⟩, 1)) := by decide
  refine ⟨hp, ?_⟩
  rw [(lister_permission_string EX03.envDir (ascii "ls") optsDir [Event.strndup (some 0)]
    ⟨0, some ⟨0, ascii "d"⟩⟩ 1 ⟨0, ascii "d"⟩ [ascii ".", ascii "..", ascii "a.txt"]
    flushAtExit hp rfl rfl (fun _ _ _ _ => ⟨by simp [EX03.envDir], by simp [EX03.envDir]⟩)).2.1]
  rfl

/-! ### The copy tool: option loop -/

/-- One turn of the option loop of the copy tool: the help exit, a turn that
duplicates nothing, a turn that duplicates the input path or one that
duplicates the output path. -/
theorem Skeleton.parseOptions_step_cp (env : Skeleton.Env) (argv0 : List Byte) (o : Opt)
    (rest : List Opt) (p : Skeleton.Params) (n : Nat) :
    (o.opt = 'h' ∧ Skeleton.parseOptions env argv0 (o :: rest) p n =
        (Skeleton.print_usage argv0 ++ free_if_needed p.bin_input_param
          ++ free_if_needed p.bin_output_param, none)) ∨
    (o.opt ≠ 'h' ∧ (o.opt = 'i' → o.optarg = none) ∧ (o.opt = 'o' → o.optarg = none) ∧ ∃ v,
        Skeleton.parseOptions env argv0 (o :: rest) p n =
          Skeleton.parseOptions env argv0 rest ⟨v, p.bin_input_param, p.bin_output_param⟩ n) ∨
    (o.opt = 'i' ∧ ∃ a, o.optarg = some a ∧
        Skeleton.parseOptions env argv0 (o :: rest) p n =
          ((dup_optarg_str env.strndupOk env.strerror n (some a)).1 ++
            (Skeleton.parseOptions env argv0 rest
              ⟨p.is_verbose_mode, (dup_optarg_str env.strndupOk env.strerror n (some a)).2.2,
                p.bin_output_param⟩
              (dup_optarg_str env.strndupOk env.strerror n (some a)).2.1).1,
           (Skeleton.parseOptions env argv0 rest
              ⟨p.is_verbose_mode, (dup_optarg_str env.strndupOk env.strerror n (some a)).2.2,
                p.bin_output_param⟩
              (dup_optarg_str env.strndupOk env.strerror n (some a)).2.1).2)) ∨
    (o.opt = 'o' ∧ ∃ a, o.optarg = some a ∧
        Skeleton.parseOptions env argv0 (o :: rest) p n =
          ((dup_optarg_str env.strndupOk env.strerror n (some a)).1 ++
            (Skeleton.parseOptions env argv0 rest
              ⟨p.is_verbose_mode, p.bin_input_param,
                (dup_optarg_str env.strndupOk env.strerror n (some a)).2.2⟩
              (dup_optarg_str env.strndupOk env.strerror n (some a)).2.1).1,
           (Skeleton.parseOptions env argv0 rest
              ⟨p.is_verbose_mode, p.bin_input_param,
                (dup_optarg_str env.strndupOk env.strerror n (some a)).2.2⟩
              (dup_optarg_str env.strndupOk env.strerror n (some a)).2.1).2)) := by
  by_cases hi : o.opt = 'i'
  · have hio : o.opt ≠ 'o' := by rw [hi]; decide
    cases ha : o.optarg with
    | none =>
      refine Or.inr (Or.inl ⟨by rw [hi]; decide, fun _ => rfl, fun _ => rfl,
        p.is_verbose_mode, ?_⟩)
      rw [Skeleton.parseOptions, if_pos hi]; simp only [ha]
    | some a =>
      refine Or.inr (Or.inr (Or.inl ⟨hi, a, rfl, ?_⟩))
      rw [Skeleton.parseOptions, if_pos hi]; simp only [ha]
  · by_cases ho : o.opt = 'o'
    · cases ha : o.optarg with
      | none =>
        refine Or.inr (Or.inl ⟨by rw [ho]; decide, fun _ => rfl, fun _ => rfl,
          p.is_verbose_mode, ?_⟩)
        rw [Skeleton.parseOptions, if_neg hi, if_pos ho]; simp only [ha]
      | some a =>
        refine Or.inr (Or.inr (Or.inr ⟨ho, a, rfl, ?_⟩))
        rw [Skeleton.parseOptions, if_neg hi, if_pos ho]; simp only [ha]
    · by_cases hv : o.opt = 'v'
      · refine Or.inr (Or.inl ⟨by rw [hv]; decide, fun h => absurd h hi, fun h => absurd h ho,
          1, ?_⟩)
        rw [Skeleton.parseOptions, if_neg hi, if_neg ho, if_pos hv]
      · by_cases hh : o.opt = 'h'
        · refine Or.inl ⟨hh, ?_⟩
          rw [Skeleton.parseOptions, if_neg hi, if_neg ho, if_neg hv, if_pos hh]
        · refine Or.inr (Or.inl ⟨hh, fun h => absurd h hi, fun h => absurd h ho,
            p.is_verbose_mode, ?_⟩)
          rw [Skeleton.parseOptions, if_neg hi, if_neg ho, if_neg hv, if_neg hh]

/-- The usage text goes to standard output and touches no file. -/
theorem Skeleton.print_usage_quiet_cp (argv0 : List Byte) :
    (∀ e ∈ Skeleton.print_usage argv0, e.isFileIO = false) ∧
      Event.dprintf STDERR BAD_USAGE ∉ Skeleton.print_usage argv0 := by
  simp [Skeleton.print_usage, Event.isFileIO, STDERR]

/-- The option loop touches no file and never prints the usage-error message. -/
theorem Skeleton.parseOptions_quiet_cp (env : Skeleton.Env) (argv0 : List Byte) :
    ∀ (opts : List Opt) (p : Skeleton.Params) (n : Nat),
      (∀ e ∈ (Skeleton.parseOptions env argv0 opts p n).1, e.isFileIO = false) ∧
      Event.dprintf STDERR BAD_USAGE ∉ (Skeleton.parseOptions env argv0 opts p n).1 := by
  intro opts
  induction opts with
  | nil => intro p n; simp [Skeleton.parseOptions]
  | cons o rest ih =>
    intro p n
    rcases Skeleton.parseOptions_step_cp env argv0 o rest p n with
      ⟨_, heq⟩ | ⟨_, _, _, v, heq⟩ | ⟨_, a, _, heq⟩ | ⟨_, a, _, heq⟩
    · have hf := free_if_needed_quiet p.bin_input_param
      have hg := free_if_needed_quiet p.bin_output_param
      have hu := Skeleton.print_usage_quiet_cp argv0
      rw [heq]
      simp only [List.mem_append, not_or]
      exact ⟨fun e he => he.elim (fun h => h.elim (hu.1 e) (hf.1 e)) (hg.1 e),
        ⟨hu.2, hf.2⟩, hg.2⟩
    · rw [heq]; exact ih _ _
    · have hd := dup_optarg_str_quiet env.strndupOk env.strerror n (some a)
      have hr := ih ⟨p.is_verbose_mode,
        (dup_optarg_str env.strndupOk env.strerror n (some a)).2.2, p.bin_output_param⟩
        (dup_optarg_str env.strndupOk env.strerror n (some a)).2.1
      rw [heq]
      simp only [List.mem_append, not_or]
      exact ⟨fun e he => he.elim (hd.1 e) (hr.1 e), hd.2.2, hr.2⟩
    · have hd := dup_optarg_str_quiet env.strndupOk env.strerror n (some a)
      have hr := ih ⟨p.is_verbose_mode, p.bin_input_param,
        (dup_optarg_str env.strndupOk env.strerror n (some a)).2.2⟩
        (dup_optarg_str env.strndupOk env.strerror n (some a)).2.1
      rw [heq]
      simp only [List.mem_append, not_or]
      exact ⟨fun e he => he.elim (hd.1 e) (hr.1 e), hd.2.2, hr.2⟩

/-- Without the help option the option loop of the copy tool ends without
exiting; when every duplication succeeds each path parameter is then set
exactly when it was set before or its option was given. -/
theorem Skeleton.parseOptions_param_cp (env : Skeleton.Env) (argv0 : List Byte)
    (hok : ∀ k, env.strndupOk k = true) :
    ∀ (opts : List Opt) (p : Skeleton.Params) (n : Nat), ¬ helpSeen opts →
      ∃ q, (Skeleton.parseOptions env argv0 opts p n).2 = some q ∧
        (q.1.bin_input_param ≠ none ↔ (p.bin_input_param ≠ none ∨ supplied 'i' opts)) ∧
        (q.1.bin_output_param ≠ none ↔ (p.bin_output_param ≠ none ∨ supplied 'o' opts)) := by
  intro opts
  induction opts with
  | nil => intro p n _; exact ⟨(p, n), rfl, by simp [supplied], by simp [supplied]⟩
  | cons o rest ih =>
    intro p n hh
    rw [helpSeen_cons, not_or] at hh
    rcases Skeleton.parseOptions_step_cp env argv0 o rest p n with
      ⟨h, _⟩ | ⟨_, hi, ho, v, heq⟩ | ⟨hi, a, ha, heq⟩ | ⟨ho, a, ha, heq⟩
    · exact absurd h hh.1
    · obtain ⟨q, hq, hiff, hoff⟩ := ih ⟨v, p.bin_input_param, p.bin_output_param⟩ n hh.2
      refine ⟨q, by rw [heq]; exact hq, ?_, ?_⟩
      · rw [hiff, supplied_cons]
        constructor
        · rintro (h | h)
          · exact Or.inl h
          · exact Or.inr (Or.inr h)
        · rintro (h | ⟨h1, h2⟩ | h)
          · exact Or.inl h
          · exact absurd (hi h1) h2
          · exact Or.inr h
      · rw [hoff, supplied_cons]
        constructor
        · rintro (h | h)
          · exact Or.inl h
          · exact Or.inr (Or.inr h)
        · rintro (h | ⟨h1, h2⟩ | h)
          · exact Or.inl h
          · exact absurd (ho h1) h2
          · exact Or.inr h
    · obtain ⟨q, hq, hiff, hoff⟩ := ih
        ⟨p.is_verbose_mode, (dup_optarg_str env.strndupOk env.strerror n (some a)).2.2,
          p.bin_output_param⟩
        (dup_optarg_str env.strndupOk env.strerror n (some a)).2.1 hh.2
      refine ⟨q, by rw [heq]; exact hq, ?_, ?_⟩
      · have hd := dup_optarg_str_ok env.strndupOk env.strerror n a (hok n)
        rw [hiff, supplied_cons]
        constructor
        · intro _; exact Or.inr (Or.inl ⟨hi, by rw [ha]; simp⟩)
        · intro _; exact Or.inl hd
      · have hno : o.opt ≠ 'o' := by rw [hi]; decide
        rw [hoff, supplied_cons]
        constructor
        · rintro (h | h)
          · exact Or.inl h
          · exact Or.inr (Or.inr h)
        · rintro (h | ⟨h1, _⟩ | h)
          · exact Or.inl h
          · exact absurd h1 hno
          · exact Or.inr h
    · obtain ⟨q, hq, hiff, hoff⟩ := ih
        ⟨p.is_verbose_mode, p.bin_input_param,
          (dup_optarg_str env.strndupOk env.strerror n (some a)).2.2⟩
        (dup_optarg_str env.strndupOk env.strerror n (some a)).2.1 hh.2
      refine ⟨q, by rw [heq]; exact hq, ?_, ?_⟩
      · have hni : o.opt ≠ 'i' := by rw [ho]; decide
        rw [hiff, supplied_cons]
        constructor
        · rintro (h | h)
          · exact Or.inl h
          · exact Or.inr (Or.inr h)
        · rintro (h | ⟨h1, _⟩ | h)
          · exact Or.inl h
          · exact absurd h1 hni
          · exact Or.inr h
      · have hd := dup_optarg_str_ok env.strndupOk env.strerror n a (hok n)
        rw [hoff, supplied_cons]
        constructor
        · intro _; exact Or.inr (Or.inl ⟨ho, by rw [ha]; simp⟩)
        · intro _; exact Or.inl hd

/-- When the option loop of the copy tool ends without exiting, none of its
calls sent anything towards standard output. -/
theorem Skeleton.parseOptions_silent_cp (env : Skeleton.Env) (argv0 : List Byte) :
    ∀ (opts : List Opt) (p : Skeleton.Params) (n : Nat) (q : Skeleton.Params × Nat),
      (Skeleton.parseOptions env argv0 opts p n).2 = some q →
      ∀ e ∈ (Skeleton.parseOptions env argv0 opts p n).1, e.isStdout = false := by
  intro opts
  induction opts with
  | nil => intro p n q _ e he; simp [Skeleton.parseOptions] at he
  | cons o rest ih =>
    intro p n q
    rcases Skeleton.parseOptions_step_cp env argv0 o rest p n with
      ⟨_, heq⟩ | ⟨_, _, _, v, heq⟩ | ⟨_, a, _, heq⟩ | ⟨_, a, _, heq⟩
    · rw [heq]; intro h; cases h
    · rw [heq]; exact ih _ _ q
    · have hd := dup_optarg_str_quiet env.strndupOk env.strerror n (some a)
      rw [heq]
      intro hq e he
      rcases List.mem_append.1 he with h | h
      · exact hd.2.1 e h
      · exact ih _ _ q hq e h
    · have hd := dup_optarg_str_quiet env.strndupOk env.strerror n (some a)
      rw [heq]
      intro hq e he
      rcases List.mem_append.1 he with h | h
      · exact hd.2.1 e h
      · exact ih _ _ q hq e h

/-- The business part of the copy tool always calls `fopen`. -/
theorem Skeleton.copyFile_opens (env : Skeleton.Env) (v : Nat) (i o : CStr) (fuel : Nat)
    (k : Skeleton.Run) (hk : Skeleton.copyFile env v i o fuel = some k) :
    ∃ e ∈ k.trace, e.isFileIO = true := by
  unfold Skeleton.copyFile at hk
  by_cases h1 : ((env.disk (env.resolve i.str)).isSome && env.readable (env.resolve i.str)) = true
  · refine ⟨Event.fopen i.str (ascii "rb") (env.resolve i.str) true, ?_, rfl⟩
    simp only [h1, if_true] at hk
    by_cases h2 : env.writable (env.resolve o.str) = true
    · simp only [h2, if_true] at hk
      split at hk
      · cases hk
      · split at hk <;> (cases hk; simp)
    · simp only [h2, if_false, Bool.false_eq_true] at hk
      cases hk; simp
  · refine ⟨Event.fopen i.str (ascii "rb") (env.resolve i.str) false, ?_, rfl⟩
    simp only [h1, if_false, Bool.false_eq_true] at hk
    cases hk; simp

/-- Usage validation of the copy tool, given how the option loop ended. -/
theorem Skeleton.usage_iff_cp (env : Skeleton.Env) (argv0 : List Byte) (opts : List Opt)
    (fuel : Nat) (q : Skeleton.Params × Nat)
    (hq : (Skeleton.parseOptions env argv0 opts ⟨0, none, none⟩ 0).2 = some q) :
    (∃ r, Skeleton.main env argv0 opts fuel = some r ∧ isUsageError r.trace r.status) ↔
      (q.1.bin_input_param = none ∨ q.1.bin_output_param = none) := by
  have hquiet := Skeleton.parseOptions_quiet_cp env argv0 opts ⟨0, none, none⟩ 0
  obtain ⟨p, n⟩ := q
  have husage : ∀ (x y : Option CStr),
      isUsageError ((Skeleton.parseOptions env argv0 opts ⟨0, none, none⟩ 0).1
        ++ [Event.dprintf STDERR BAD_USAGE] ++ free_if_needed x ++ free_if_needed y)
        (Status.exit EXIT_FAILURE) := by
    intro x y
    refine ⟨by simp, rfl, ?_⟩
    intro e he
    simp only [List.mem_append] at he
    rcases he with ((he | he) | he) | he
    · exact hquiet.1 e he
    · simp at he; subst he; rfl
    · exact (free_if_needed_quiet x).1 e he
    · exact (free_if_needed_quiet y).1 e he
  cases hi : p.bin_input_param with
  | none =>
    simp only [true_or, iff_true]
    refine ⟨⟨_, Status.exit EXIT_FAILURE, env.disk⟩, ?_, husage none p.bin_output_param⟩
    simp only [Skeleton.main, hq, hi]
  | some ci =>
    cases ho : p.bin_output_param with
    | none =>
      simp only [or_true, iff_true]
      refine ⟨⟨_, Status.exit EXIT_FAILURE, env.disk⟩, ?_, husage (some ci) none⟩
      simp only [Skeleton.main, hq, hi, ho]
    | some co =>
      simp only [reduceCtorEq, or_self, iff_false]
      rintro ⟨r, hr, _, _, h3⟩
      simp only [Skeleton.main, hq, hi, ho] at hr
      cases hc : Skeleton.copyFile env p.is_verbose_mode ci co fuel with
      | none => rw [hc] at hr; cases hr
      | some k =>
        rw [hc] at hr
        obtain ⟨e, he, hio⟩ := Skeleton.copyFile_opens env p.is_verbose_mode ci co fuel k hc
        cases hr
        have := h3 e (List.mem_append_right _ he)
        rw [hio] at this
        cases this

/-! ### The usage-error message is printed by the usage check only -/

/-- Two traces run one after the other without a `dprintf` on standard error. -/
theorem noErrDprintf_append (a b : List Event) :
    noErrDprintf (a ++ b) = (noErrDprintf a && noErrDprintf b) := by
  simp [noErrDprintf, List.all_append]

/-- The empty trace has no `dprintf` on standard error. -/
theorem noErrDprintf_nil : noErrDprintf [] = true := rfl

/-- A trace has no `dprintf` on standard error when its first call is none and
the rest has none. -/
theorem noErrDprintf_cons (e : Event) (t : List Event) :
    noErrDprintf (e :: t) = (!e.isErrDprintf && noErrDprintf t) := rfl

/-- A trace without a `dprintf` on standard error does not hold the usage-error message. -/
theorem noErrDprintf_mem (t : List Event) (h : noErrDprintf t = true) (bs : List Byte) :
    Event.dprintf 2 bs ∉ t := by
  intro hmem
  have := List.all_eq_true.1 h _ hmem
  simp [Event.isErrDprintf] at this

/-- The call of `free_if_needed` is not a `dprintf`. -/
theorem free_if_needed_noerr (q : Option CStr) : noErrDprintf (free_if_needed q) = true := by
  cases q <;> rfl

/-- The reverse loop never calls `dprintf` on standard error. -/
theorem EX02.reverseLoop_noerr (env : EX02.Env) (b : List Byte) (param : Option CStr) :
    ∀ (k : Nat) (buf : Byte), noErrDprintf (EX02.reverseLoop env b param k buf).1 = true := by
  intro k
  induction k with
  | zero => intro buf; rfl
  | succ k ih =>
    intro buf
    unfold EX02.reverseLoop
    by_cases h1 : env.seekFails k = true
    · simp [h1, noErrDprintf_append, free_if_needed_noerr, noErrDprintf_cons, noErrDprintf_nil, Event.isErrDprintf]
    · by_cases h2 : env.readFails k = true
      · simp [h1, h2, noErrDprintf_append, free_if_needed_noerr, noErrDprintf_cons,
          noErrDprintf_nil, Event.isErrDprintf]
      · have := ih ((b.get? k).getD buf)
        simp only [h1, h2, if_false, Bool.false_eq_true, noErrDprintf_append, this,
          Bool.and_true]
        rfl

/-- The business part of the reverse tool never calls `dprintf` on standard error. -/
theorem EX02.reverseFile_noerr (env : EX02.Env) (v : Nat) (c : CStr) :
    noErrDprintf (EX02.reverseFile env v c).1 = true := by
  unfold EX02.reverseFile
  cases hf : env.file c.str with
  | none => simp [noErrDprintf_append, free_if_needed_noerr, noErrDprintf_cons, noErrDprintf_nil, Event.isErrDprintf]
  | some b =>
    cases hs : env.sizeFails with
    | true => simp [noErrDprintf_append, free_if_needed_noerr, noErrDprintf_cons, noErrDprintf_nil, Event.isErrDprintf]
    | false =>
      have hl := EX02.reverseLoop_noerr env b (some c) b.length env.buffer
      cases hr : (EX02.reverseLoop env b (some c) b.length env.buffer).2 <;>
        simp [hr, noErrDprintf_append, free_if_needed_noerr, hl, noErrDprintf_cons,
          noErrDprintf_nil, Event.isErrDprintf]

/-- The loop over the entries of a directory never calls `dprintf` on standard error. -/
theorem EX03.listEntries_noerr (env : EX03.Env) (dirpath : List Byte) :
    ∀ names : List (List Byte), noErrDprintf (EX03.listEntries env dirpath names).1 = true := by
  intro names
  induction names with
  | nil => rfl
  | cons name rest ih =>
    unfold EX03.listEntries
    cases hs : env.stat ((dirpath ++ ascii "/" ++ name).take (MAX_PATH_LENGTH - 1)) with
    | none =>
      simp only [hs]
      simp [noErrDprintf_append, ih, noErrDprintf_cons, noErrDprintf_nil, Event.isErrDprintf]
    | some st =>
      simp only [hs]
      cases ho : env.pw_name st.st_uid <;> cases hg : env.gr_name st.st_gid <;>
        simp [noErrDprintf_append, ih, noErrDprintf_cons, noErrDprintf_nil, Event.isErrDprintf]

/-- The copy loop never calls `dprintf` on standard error. -/
theorem Skeleton.copyLoop_noerr (env : Skeleton.Env) (v src dst : Nat) :
    ∀ (fuel : Nat) (f : Skeleton.Files) (r : List Event × Option Nat × Skeleton.Files),
      Skeleton.copyLoop env v src dst fuel f = some r → noErrDprintf r.1 = true := by
  intro fuel
  induction fuel with
  | zero => intro f r h; simp [Skeleton.copyLoop] at h
  | succ fuel ih =>
    intro f r h
    rw [Skeleton.copyLoop] at h
    simp only at h
    split at h
    · split at h
      · cases h; rfl
      · split at h
        · cases h
        · rename_i k hk
          cases h
          have := ih _ _ hk
          by_cases hv : v = 0 <;>
            simp [hv, noErrDprintf_append, this, noErrDprintf_cons, noErrDprintf_nil, Event.isErrDprintf]
    · cases h; rfl

/-- The business part of the copy tool never calls `dprintf` on standard error. -/
theorem Skeleton.copyFile_noerr (env : Skeleton.Env) (v : Nat) (i o : CStr) (fuel : Nat)
    (k : Skeleton.Run) (hk : Skeleton.copyFile env v i o fuel = some k) :
    noErrDprintf k.trace = true := by
  unfold Skeleton.copyFile at hk
  by_cases h1 : ((env.disk (env.resolve i.str)).isSome && env.readable (env.resolve i.str)) = true
  · simp only [h1, if_true] at hk
    by_cases h2 : env.writable (env.resolve o.str) = true
    · simp only [h2, if_true] at hk
      split at hk
      · cases hk
      · rename_i r hr
        have hl := Skeleton.copyLoop_noerr env v _ _ _ _ r hr
        split at hk <;>
          (cases hk
           simp [noErrDprintf_append, hl, free_if_needed_noerr, noErrDprintf_cons,
             noErrDprintf_nil, Event.isErrDprintf])
    · simp only [h2, if_false, Bool.false_eq_true] at hk
      cases hk; rfl
  · simp only [h1, if_false, Bool.false_eq_true] at hk
    cases hk; rfl

/-- The reverse tool prints the usage-error message exactly when the option
loop left the input parameter `NULL`. -/
theorem EX02.usage_msg_iff_rev (env : EX02.Env) (argv0 : List Byte) (opts : List Opt)
    (q : EX02.Params × Nat)
    (hq : (EX02.parseOptions env argv0 opts ⟨0, none⟩ 0).2 = some q) :
    Event.dprintf 2 (ascii "Bad usage! See HELP [--help|-h]\n") ∈ (EX02.main env argv0 opts).1 ↔
      q.1.bin_input_param = none := by
  have hquiet := (EX02.parseOptions_quiet_rev env argv0 opts ⟨0, none⟩ 0).2
  obtain ⟨p, n⟩ := q
  cases hp : p.bin_input_param with
  | none =>
    simp only [iff_true]
    simp only [EX02.main, hq, hp, free_if_needed, List.append_nil]
    exact List.mem_append_right _ (List.mem_singleton.2 rfl)
  | some c =>
    simp only [iff_false, reduceCtorEq]
    simp only [EX02.main, hq, hp]
    intro h
    rcases List.mem_append.1 h with h | h
    · exact hquiet h
    · exact noErrDprintf_mem _ (EX02.reverseFile_noerr env p.is_verbose_mode c) _ h

/-- The lister prints the usage-error message exactly when the option loop
left the directory parameter `NULL`. -/
theorem EX03.usage_msg_iff_ls (env : EX03.Env) (argv0 : List Byte) (opts : List Opt)
    (q : EX03.Params × Nat)
    (hq : (EX03.parseOptions env argv0 opts ⟨0, none⟩ 0).2 = some q) :
    Event.dprintf 2 (ascii "Bad usage! See HELP [--help|-h]\n") ∈ (EX03.main env argv0 opts).1 ↔
      q.1.bin_directory_param = none := by
  have hquiet := (EX03.parseOptions_quiet_ls env argv0 opts ⟨0, none⟩ 0).2
  obtain ⟨p, n⟩ := q
  cases hp : p.bin_directory_param with
  | none =>
    simp only [iff_true]
    simp only [EX03.main, hq, hp, free_if_needed, List.append_nil]
    exact List.mem_append_right _ (List.mem_singleton.2 rfl)
  | some c =>
    simp only [iff_false, reduceCtorEq]
    have hl := fun names => EX03.listEntries_noerr env c.str names
    have hb : ∃ t, (EX03.main env argv0 opts).1 =
        (EX03.parseOptions env argv0 opts ⟨0, none⟩ 0).1 ++ t ∧ noErrDprintf t = true := by
      simp only [EX03.main, hq, hp]
      cases hd : env.dir c.str with
      | none =>
        exact ⟨[Event.opendir c.str false, Event.perror (ascii "Error opening directory")]
          ++ free_if_needed (some c), by simp only [List.append_assoc], rfl⟩
      | some names =>
        cases hr : (EX03.listEntries env c.str names).2 with
        | some st =>
          refine ⟨[Event.opendir c.str true] ++ (EX03.listEntries env c.str names).1,
            by simp only [hr, List.append_assoc], ?_⟩
          simp [noErrDprintf_append, hl, noErrDprintf_cons, noErrDprintf_nil, Event.isErrDprintf]
        | none =>
          refine ⟨[Event.opendir c.str true] ++ (EX03.listEntries env c.str names).1
            ++ [Event.closedir] ++ free_if_needed (some c),
            by simp only [hr, List.append_assoc], ?_⟩
          simp [noErrDprintf_append, hl, free_if_needed_noerr, noErrDprintf_cons,
            noErrDprintf_nil, Event.isErrDprintf]
    obtain ⟨t, ht, hn⟩ := hb
    rw [ht]
    intro h
    rcases List.mem_append.1 h with h | h
    · exact hquiet h
    · exact noErrDprintf_mem _ hn _ h

/-- The copy tool prints the usage-error message exactly when the option loop
left one of the two path parameters `NULL`. -/
theorem Skeleton.usage_msg_iff_cp (env : Skeleton.Env) (argv0 : List Byte) (opts : List Opt)
    (fuel : Nat) (q : Skeleton.Params × Nat)
    (hq : (Skeleton.parseOptions env argv0 opts ⟨0, none, none⟩ 0).2 = some q) :
    (∃ r, Skeleton.main env argv0 opts fuel = some r ∧
        Event.dprintf 2 (ascii "Bad usage! See HELP [--help|-h]\n") ∈ r.trace) ↔
      (q.1.bin_input_param = none ∨ q.1.bin_output_param = none) := by
  have hquiet := (Skeleton.parseOptions_quiet_cp env argv0 opts ⟨0, none, none⟩ 0).2
  obtain ⟨p, n⟩ := q
  have hmem : ∀ (x y : Option CStr),
      Event.dprintf 2 (ascii "Bad usage! See HELP [--help|-h]\n") ∈
        (Skeleton.parseOptions env argv0 opts ⟨0, none, none⟩ 0).1
          ++ [Event.dprintf STDERR BAD_USAGE] ++ free_if_needed x ++ free_if_needed y :=
    fun _ _ => List.mem_append_left _ (List.mem_append_left _
      (List.mem_append_right _ (List.mem_singleton.2 rfl)))
  cases hi : p.bin_input_param with
  | none =>
    simp only [true_or, iff_true]
    refine ⟨⟨_, Status.exit EXIT_FAILURE, env.disk⟩, ?_, hmem none p.bin_output_param⟩
    simp only [Skeleton.main, hq, hi]
  | some ci =>
    cases ho : p.bin_output_param with
    | none =>
      simp only [or_true, iff_true]
      refine ⟨⟨_, Status.exit EXIT_FAILURE, env.disk⟩, ?_, hmem (some ci) none⟩
      simp only [Skeleton.main, hq, hi, ho]
    | some co =>
      simp only [reduceCtorEq, or_self, iff_false]
      rintro ⟨r, hr, hmem⟩
      simp only [Skeleton.main, hq, hi, ho] at hr
      cases hc : Skeleton.copyFile env p.is_verbose_mode ci co fuel with
      | none => rw [hc] at hr; cases hr
      | some k =>
        rw [hc] at hr
        have hn := Skeleton.copyFile_noerr env p.is_verbose_mode ci co fuel k hc
        cases hr
        rcases List.mem_append.1 hmem with h | h
        · exact hquiet h
        · exact noErrDprintf_mem _ hn _ h

/-- C6, as stated, fails: when `strndup` fails, `-i f` is supplied and no help
option is seen, yet the reverse tool reports the usage error. -/
theorem usage_error_despite_input :
    supplied 'i' optsInput ∧ ¬ helpSeen optsInput ∧
      isUsageError (EX02.main EX02.envNoMem (ascii "rev") optsInput).1
        (EX02.main EX02.envNoMem (ascii "rev") optsInput).2 := by
  refine ⟨?_, ?_, ?_⟩
  · simp [supplied, optsInput]
  · simp [helpSeen, optsInput]
  · exact (EX02.usage_iff_rev EX02.envNoMem (ascii "rev") optsInput (⟨0, none⟩, 1) (by decide)).2 rfl

/-- C6, amended. Usage validation: when option parsing finishes without the
help option having been seen and every duplication of an argument string
succeeds, each program prints the usage-error message on standard error and
exits with code 1 without touching any file or directory if and only if a
required path argument was not supplied: `-i` for the reverse tool, `-d` for
the lister, and either one of `-i` and `-o` for the copy tool. Moreover the
message `Bad usage! See HELP [--help|-h]` is printed on standard error, at any
point of the run, if and only if a required path argument was not supplied. -/
theorem usage_validation (e2 : EX02.Env) (e3 : EX03.Env) (es : Skeleton.Env)
    (argv0 : List Byte) (opts : List Opt) (fuel : Nat)
    (hhelp : ¬ helpSeen opts)
    (h2 : ∀ k, e2.strndupOk k = true) (h3 : ∀ k, e3.strndupOk k = true)
    (hs : ∀ k, es.strndupOk k = true) :
    (isUsageError (EX02.main e2 argv0 opts).1 (EX02.main e2 argv0 opts).2 ↔
        ¬ supplied 'i' opts) ∧
      (isUsageError (EX03.main e3 argv0 opts).1 (EX03.main e3 argv0 opts).2 ↔
        ¬ supplied 'd' opts) ∧
      ((∃ r, Skeleton.main es argv0 opts fuel = some r ∧ isUsageError r.trace r.status) ↔
        ¬ (supplied 'i' opts ∧ supplied 'o' opts)) ∧
      (Event.dprintf 2 (ascii "Bad usage! See HELP [--help|-h]\n") ∈ (EX02.main e2 argv0 opts).1 ↔
        ¬ supplied 'i' opts) ∧
      (Event.dprintf 2 (ascii "Bad usage! See HELP [--help|-h]\n") ∈ (EX03.main e3 argv0 opts).1 ↔
        ¬ supplied 'd' opts) ∧
      ((∃ r, Skeleton.main es argv0 opts fuel = some r ∧
          Event.dprintf 2 (ascii "Bad usage! See HELP [--help|-h]\n") ∈ r.trace) ↔
        ¬ (supplied 'i' opts ∧ supplied 'o' opts)) := by
  refine ⟨?_, ?_, ?_, ?_, ?_, ?_⟩
  · obtain ⟨q, hq, hiff⟩ := EX02.parseOptions_param_rev e2 argv0 h2 opts ⟨0, none⟩ 0 hhelp
    rw [EX02.usage_iff_rev e2 argv0 opts q hq, ← not_iff_not, not_not]
    exact hiff.trans (by simp)
  · obtain ⟨q, hq, hiff⟩ := EX03.parseOptions_param_ls e3 argv0 h3 opts ⟨0, none⟩ 0 hhelp
    rw [EX03.usage_iff_ls e3 argv0 opts q hq, ← not_iff_not, not_not]
    exact hiff.trans (by simp)
  · obtain ⟨q, hq, hiff, hoff⟩ :=
      Skeleton.parseOptions_param_cp es argv0 hs opts ⟨0, none, none⟩ 0 hhelp
    rw [Skeleton.usage_iff_cp es argv0 opts fuel q hq, ← not_iff_not, not_not, not_or]
    exact (and_congr hiff hoff).trans (by simp)
  · obtain ⟨q, hq, hiff⟩ := EX02.parseOptions_param_rev e2 argv0 h2 opts ⟨0, none⟩ 0 hhelp
    rw [EX02.usage_msg_iff_rev e2 argv0 opts q hq, ← not_iff_not, not_not]
    exact hiff.trans (by simp)
  · obtain ⟨q, hq, hiff⟩ := EX03.parseOptions_param_ls e3 argv0 h3 opts ⟨0, none⟩ 0 hhelp
    rw [EX03.usage_msg_iff_ls e3 argv0 opts q hq, ← not_iff_not, not_not]
    exact hiff.trans (by simp)
  · obtain ⟨q, hq, hiff, hoff⟩ :=
      Skeleton.parseOptions_param_cp es argv0 hs opts ⟨0, none, none⟩ 0 hhelp
    rw [Skeleton.usage_msg_iff_cp es argv0 opts fuel q hq, ← not_iff_not, not_not, not_or]
    exact (and_congr hiff hoff).trans (by simp)

/-- A sample run for C6, amended. -/
theorem usage_validation_witness :
    ¬ helpSeen optsInput ∧
      ¬ isUsageError (EX02.main EX02.envABC (ascii "rev") optsInput).1
        (EX02.main EX02.envABC (ascii "rev") optsInput).2 ∧
      isUsageError (EX03.main EX03.envOneFile (ascii "ls") optsInput).1
        (EX03.main EX03.envOneFile (ascii "ls") optsInput).2 ∧
      ∃ r, Skeleton.main Skeleton.envCopy (ascii "cp") optsInput 0 = some r ∧
        isUsageError r.trace r.status := by
  have hh : ¬ helpSeen optsInput := by simp [helpSeen, optsInput]
  have hi : supplied 'i' optsInput := by simp [supplied, optsInput]
  have hd : ¬ supplied 'd' optsInput := by simp [supplied, optsInput]
  have ho : ¬ supplied 'o' optsInput := by simp [supplied, optsInput]
  obtain ⟨w2, w3, ws, _⟩ := usage_validation EX02.envABC EX03.envOneFile Skeleton.envCopy
    (ascii "rev") optsInput 0 hh (fun _ => rfl) (fun _ => rfl) (fun _ => rfl)
  exact ⟨hh, fun h => (w2.1 h) hi, w3.2 hd, ws.2 (fun h => ho h.2)⟩

/-- C7 fails on the code. Copy tool, `-i f -o gg` with a source that cannot be
opened: the two duplicated strings are never released. Reverse tool,
`-i f -i f`: the first duplicate is never released. -/
theorem ownership_leaks :
    (∃ r, Skeleton.main Skeleton.envNoSource (ascii "cp") optsCopy 0 = some r ∧
        r.status = Status.exit 1 ∧ allocated r.trace = [0, 1] ∧ freed r.trace = []) ∧
      (EX02.main EX02.envABC (ascii "rev") (optsInput ++ optsInput)).2 = Status.exit 0 ∧
      allocated (EX02.main EX02.envABC (ascii "rev") (optsInput ++ optsInput)).1 = [0, 1] ∧
      freed (EX02.main EX02.envABC (ascii "rev") (optsInput ++ optsInput)).1 = [1] := by
  refine ⟨⟨_, rfl, ?_, ?_, ?_⟩, ?_, ?_, ?_⟩ <;> decide

/-- C8 fails on the code. With `-i f -i f -h` (`-d f -d f -h` for the lister)
each program prints the usage text and exits with code 0, but of the two
strings duplicated so far only the second is released. -/
theorem help_leaks_repeated_option :
    EX02.main EX02.envABC (ascii "rev") optsTwiceHelp =
        ([Event.strndup (some 0), Event.strndup (some 1)] ++ EX02.print_usage (ascii "rev")
          ++ [Event.free 1], Status.exit 0) ∧
      EX03.main EX03.envOneFile (ascii "ls") optsDirTwiceHelp =
        ([Event.strndup (some 0), Event.strndup (some 1)] ++ EX03.print_usage (ascii "ls")
          ++ [Event.free 1], Status.exit 0) ∧
      (∃ r, Skeleton.main Skeleton.envCopy (ascii "cp") optsTwiceHelp 0 = some r ∧
        r.trace = [Event.strndup (some 0), Event.strndup (some 1)]
          ++ Skeleton.print_usage (ascii "cp") ++ [Event.free 1] ∧
        r.status = Status.exit 0) := by
  exact ⟨rfl, rfl, _, rfl, rfl, rfl⟩

/-! ### The copy tool: copy loop -/

/-- Writing at the end of a file appends. -/
theorem Skeleton.writeAt_end (d bs : List Byte) : Skeleton.writeAt d d.length bs = d ++ bs := by
  simp [Skeleton.writeAt]

/-- A chunk followed by what comes after it is the whole. -/
theorem Skeleton.take_append_drop_length (n : Nat) (x : List Byte) :
    x.take n ++ x.drop (x.take n).length = x := by
  rcases Nat.le_total n x.length with h | h
  · rw [List.length_take, Nat.min_eq_left h, List.take_append_drop]
  · rw [List.take_of_length_le h, List.drop_length, List.append_nil]

/-- The copy loop on two different files when no read and no write fails:
it ends normally, after one turn per chunk of at most 8192 bytes of what was
left of the source, and the destination has received what was left. -/
theorem Skeleton.copyLoop_ok (env : Skeleton.Env) (v src dst : Nat) (b : List Byte)
    (hne : src ≠ dst) (hr : ∀ k, env.readErr k = none) (hw : ∀ k, env.writeErr k = none) :
    ∀ (fuel : Nat) (f : Skeleton.Files) (d : List Byte),
      f.disk src = some b → f.disk dst = some d → f.wpos = d.length →
      b.length - f.rpos < fuel →
      ∃ (cs : List (List Byte)) (f1 : Skeleton.Files),
        Skeleton.copyLoop env v src dst fuel f =
          some (cs.flatMap (Skeleton.chunkEvents v) ++ [Event.fread []], none, f1) ∧
        f1.disk dst = some (d ++ b.drop f.rpos) ∧
        (∀ s, s ≠ dst → f1.disk s = f.disk s) ∧
        cs.flatten = b.drop f.rpos ∧
        (∀ c ∈ cs, 1 ≤ c.length ∧ c.length ≤ Skeleton.BUFFER_SIZE) ∧
        (∀ c ∈ cs.dropLast, c.length = Skeleton.BUFFER_SIZE) ∧
        cs.length = (b.length - f.rpos + 8191) / 8192 := by
  intro fuel
  induction fuel with
  | zero => intro f d _ _ _ h; exact absurd h (Nat.not_lt_zero _)
  | succ fuel ih =>
    intro f d hsrc hdst hpos hfuel
    have hlen : ((b.drop f.rpos).take Skeleton.BUFFER_SIZE).length
        = min 8192 (b.length - f.rpos) := by
      simp [Skeleton.BUFFER_SIZE]
    by_cases hz : ((b.drop f.rpos).take Skeleton.BUFFER_SIZE).length > 0
    · -- a chunk was read
      have hd2 : (fun s => if s = dst then
            some (Skeleton.writeAt d d.length ((b.drop f.rpos).take Skeleton.BUFFER_SIZE))
          else f.disk s) src = some b := by
        simp [hne, hsrc]
      obtain ⟨cs, f1, hrun, hdisk, hother, hflat, hbound, hlast, hcount⟩ :=
        ih { disk := fun s => if s = dst then
                some (Skeleton.writeAt d d.length ((b.drop f.rpos).take Skeleton.BUFFER_SIZE))
              else f.disk s,
             rpos := f.rpos + ((b.drop f.rpos).take Skeleton.BUFFER_SIZE).length,
             wpos := d.length + ((b.drop f.rpos).take Skeleton.BUFFER_SIZE).length,
             nread := f.nread + 1, nwrite := f.nwrite + 1 }
          (d ++ (b.drop f.rpos).take Skeleton.BUFFER_SIZE) hd2
          (by simp [Skeleton.writeAt_end]) (by simp)
          (by simp only; omega)
      dsimp only at hrun hdisk hother hflat hcount
      have hsplit : (b.drop f.rpos).take Skeleton.BUFFER_SIZE
          ++ b.drop (f.rpos + ((b.drop f.rpos).take Skeleton.BUFFER_SIZE).length)
          = b.drop f.rpos := by
        rw [← List.drop_drop]
        exact Skeleton.take_append_drop_length _ _
      refine ⟨(b.drop f.rpos).take Skeleton.BUFFER_SIZE :: cs, f1, ?_, ?_, ?_, ?_, ?_, ?_, ?_⟩
      · rw [Skeleton.copyLoop]
        simp only [hsrc, hdst, hpos, Option.getD_some, hr, hw, hz, if_true, ne_eq,
          not_true_eq_false, if_false, List.take_length, hrun, List.flatMap_cons,
          Skeleton.chunkEvents, List.append_assoc]
      · rw [hdisk]; simp only [List.append_assoc, hsplit]
      · intro s hs
        rw [hother s hs]; simp [hs]
      · simp only [List.flatten_cons, hflat, hsplit]
      · intro c hc
        rcases List.mem_cons.1 hc with h | h
        · subst h; exact ⟨hz, by simp [Skeleton.BUFFER_SIZE]⟩
        · exact hbound c h
      · intro c hc
        by_cases hnil : cs = []
        · subst hnil; simp at hc
        · rw [List.dropLast_cons_of_ne_nil hnil] at hc
          rcases List.mem_cons.1 hc with h | h
          · subst h
            have hpos2 : 0 < cs.length := List.length_pos.2 hnil
            rw [hcount] at hpos2
            simp only [Skeleton.BUFFER_SIZE] at hlen hpos2 ⊢
            omega
          · exact hlast c h
      · simp only [List.length_cons, hcount]
        simp only [Skeleton.BUFFER_SIZE] at hlen hz ⊢
        omega
    · -- end of input
      have hnil : (b.drop f.rpos).take Skeleton.BUFFER_SIZE = [] :=
        List.eq_nil_of_length_eq_zero (Nat.eq_zero_of_not_pos hz)
      have hdrop : b.drop f.rpos = [] := by
        have : b.length - f.rpos = 0 := by
          rw [hnil] at hlen; simp only [List.length_nil] at hlen; omega
        exact List.eq_nil_of_length_eq_zero (by rw [List.length_drop]; exact this)
      refine ⟨[], { f with rpos := f.rpos + 0, nread := f.nread + 1 }, ?_, ?_, ?_, ?_, ?_, ?_, ?_⟩
      · rw [Skeleton.copyLoop]
        simp only [hsrc, Option.getD_some, hr, hnil, List.length_nil, gt_iff_lt,
          Nat.lt_irrefl, if_false, List.flatMap_nil, List.nil_append]
      · simp [hdst, hdrop]
      · intro s _; rfl
      · simp [hdrop]
      · intro c hc; cases hc
      · intro c hc; simp at hc
      · have : b.length - f.rpos = 0 := by
          rw [← List.length_drop, hdrop]; rfl
        simp only [List.length_nil, this]

/-- The lines printed by the turns of the copy loop: one per chunk in verbose
mode, none otherwise. -/
theorem Skeleton.printfs_chunks (v : Nat) (cs : List (List Byte)) :
    printfs (cs.flatMap (Skeleton.chunkEvents v)) =
      if v ≠ 0 then cs.map (fun c => Skeleton.copiedLine c.length) else [] := by
  induction cs with
  | nil => simp [printfs]
  | cons c cs ih =>
    by_cases hv : v = 0
    · simp [hv, Skeleton.chunkEvents, printfs_append, printfs] at ih ⊢
      exact ih
    · simp [hv, Skeleton.chunkEvents, printfs_append, printfs] at ih ⊢
      exact ih

/-- How `main` continues once the option loop left both parameters set. -/
theorem Skeleton.main_of_parse (env : Skeleton.Env) (argv0 : List Byte) (opts : List Opt)
    (fuel : Nat) (t0 : List Event) (p : Skeleton.Params) (n0 : Nat) (ci co : CStr)
    (hparse : Skeleton.parseOptions env argv0 opts ⟨0, none, none⟩ 0 = (t0, some (p, n0)))
    (hin : p.bin_input_param = some ci) (hout : p.bin_output_param = some co) :
    Skeleton.main env argv0 opts fuel =
      (Skeleton.copyFile env p.is_verbose_mode ci co fuel).map
        (fun k => ⟨t0 ++ k.trace, k.status, k.disk⟩) := by
  simp only [Skeleton.main, hparse, hin, hout]
  cases Skeleton.copyFile env p.is_verbose_mode ci co fuel <;> rfl

/-- The business part of the copy tool on two different files when both opens
succeed and no read and no write fails. -/
theorem Skeleton.copyFile_ok (env : Skeleton.Env) (v : Nat) (ci co : CStr) (fuel : Nat)
    (b : List Byte)
    (hdiff : env.resolve ci.str ≠ env.resolve co.str)
    (hb : env.disk (env.resolve ci.str) = some b)
    (hread : env.readable (env.resolve ci.str) = true)
    (hwrite : env.writable (env.resolve co.str) = true)
    (hr : ∀ k, env.readErr k = none) (hw : ∀ k, env.writeErr k = none)
    (hfuel : b.length < fuel) :
    ∃ (cs : List (List Byte)) (disk1 : Skeleton.Disk),
      Skeleton.copyFile env v ci co fuel =
        some ⟨[Event.dprintf 1 (Skeleton.banner ci.str co.str v),
            Event.fopen ci.str (ascii "rb") (env.resolve ci.str) true,
            Event.fopen co.str (ascii "wb") (env.resolve co.str) true]
          ++ (cs.flatMap (Skeleton.chunkEvents v) ++ [Event.fread []])
          ++ [Event.fclose 0, Event.fclose 1, Event.free ci.blk, Event.free co.blk],
          Status.exit 0, disk1⟩ ∧
      disk1 (env.resolve co.str) = some b ∧
      disk1 (env.resolve ci.str) = some b ∧
      cs.flatten = b ∧
      (∀ c ∈ cs, 1 ≤ c.length ∧ c.length ≤ Skeleton.BUFFER_SIZE) ∧
      (∀ c ∈ cs.dropLast, c.length = Skeleton.BUFFER_SIZE) ∧
      cs.length = (b.length + 8191) / 8192 := by
  obtain ⟨cs, f1, hrun, hdisk, hother, hflat, hbound, hlast, hcount⟩ :=
    Skeleton.copyLoop_ok env v (env.resolve ci.str) (env.resolve co.str) b hdiff hr hw fuel
      ⟨fun s => if s = env.resolve co.str then some [] else env.disk s, 0, 0, 0, 0⟩ []
      (by simp [hdiff, hb]) (by simp) rfl (by simpa using hfuel)
  dsimp only at hrun hdisk hother hflat hcount
  rw [List.drop_zero] at hdisk hflat
  refine ⟨cs, f1.disk, ?_, by simpa using hdisk, ?_, hflat, hbound, hlast, by simpa using hcount⟩
  · simp [Skeleton.copyFile, hb, hread, hwrite, hrun, free_if_needed, EXIT_SUCCESS]
  · rw [hother _ hdiff]; simp [hdiff, hb]

/-- The copy loop when nothing is left to read: one `fread` that obtains
nothing, and the loop ends. -/
theorem Skeleton.copyLoop_eof (env : Skeleton.Env) (v src dst fuel : Nat) (f : Skeleton.Files)
    (x : List Byte) (hx : f.disk src = some x) (hlen : x.length ≤ f.rpos) :
    ∃ f1 : Skeleton.Files,
      Skeleton.copyLoop env v src dst (fuel + 1) f = some ([Event.fread []], none, f1) ∧
      f1.disk = f.disk := by
  have hwant : (x.drop f.rpos).take Skeleton.BUFFER_SIZE = [] := by
    rw [List.drop_of_length_le hlen]; rfl
  rw [Skeleton.copyLoop]
  simp only [hx, Option.getD_some, hwant]
  cases env.readErr f.nread <;> simp

/-- The business part of the copy tool when both paths name the same file. -/
theorem Skeleton.copyFile_same (env : Skeleton.Env) (v : Nat) (ci co : CStr) (fuel : Nat)
    (b : List Byte)
    (hsame : env.resolve ci.str = env.resolve co.str)
    (hb : env.disk (env.resolve ci.str) = some b)
    (hread : env.readable (env.resolve ci.str) = true)
    (hwrite : env.writable (env.resolve co.str) = true)
    (hfuel : 0 < fuel) :
    ∃ disk1 : Skeleton.Disk,
      Skeleton.copyFile env v ci co fuel =
        some ⟨[Event.dprintf 1 (Skeleton.banner ci.str co.str v),
            Event.fopen ci.str (ascii "rb") (env.resolve ci.str) true,
            Event.fopen co.str (ascii "wb") (env.resolve co.str) true,
            Event.fread [],
            Event.fclose 0, Event.fclose 1, Event.free ci.blk, Event.free co.blk],
          Status.exit 0, disk1⟩ ∧
      disk1 (env.resolve ci.str) = some [] := by
  obtain ⟨fuel, rfl⟩ : ∃ k, fuel = k + 1 := ⟨fuel - 1, by omega⟩
  obtain ⟨f1, hrun, hdisk⟩ := Skeleton.copyLoop_eof env v (env.resolve ci.str)
    (env.resolve co.str) fuel
    ⟨fun s => if s = env.resolve co.str then some [] else env.disk s, 0, 0, 0, 0⟩ []
    (by simp [hsame]) (Nat.le_refl _)
  refine ⟨f1.disk, ?_, by rw [hdisk]; simp [hsame]⟩
  simp only [Skeleton.copyFile, hb, hread, hwrite, hrun, free_if_needed, EXIT_SUCCESS,
    Option.isSome_some, Bool.and_self, if_true, List.append_assoc, List.cons_append,
    List.nil_append]

/-- C1. Copy tool round trip: for every source content `b` and every
destination path that names another file, whatever that file held, if both
opens succeed and no read and no write fails, the run ends with the
destination holding exactly `b`, the source still holding `b`, and exit code 0. -/
theorem copy_round_trip (env : Skeleton.Env) (argv0 : List Byte) (opts : List Opt)
    (fuel : Nat) (t0 : List Event) (p : Skeleton.Params) (n0 : Nat) (ci co : CStr)
    (b : List Byte)
    (hparse : Skeleton.parseOptions env argv0 opts ⟨0, none, none⟩ 0 = (t0, some (p, n0)))
    (hin : p.bin_input_param = some ci) (hout : p.bin_output_param = some co)
    (hdiff : env.resolve ci.str ≠ env.resolve co.str)
    (hb : env.disk (env.resolve ci.str) = some b)
    (hread : env.readable (env.resolve ci.str) = true)
    (hwrite : env.writable (env.resolve co.str) = true)
    (hr : ∀ k, env.readErr k = none) (hw : ∀ k, env.writeErr k = none)
    (hfuel : b.length < fuel) :
    ∃ r, Skeleton.main env argv0 opts fuel = some r ∧
      r.disk (env.resolve co.str) = some b ∧
      r.disk (env.resolve ci.str) = some b ∧
      r.status = Status.exit 0 := by
  obtain ⟨cs, disk1, hrun, hdst, hsrc, _⟩ := Skeleton.copyFile_ok env p.is_verbose_mode ci co
    fuel b hdiff hb hread hwrite hr hw hfuel
  rw [Skeleton.main_of_parse env argv0 opts fuel t0 p n0 ci co hparse hin hout, hrun]
  exact ⟨_, rfl, hdst, hsrc, rfl⟩

/-- A sample run for C1. -/
theorem copy_round_trip_witness :
    Skeleton.parseOptions Skeleton.envCopy (ascii "cp") optsCopy ⟨0, none, none⟩ 0 =
        ([Event.strndup (some 0), Event.strndup (some 1)],
          some (⟨0, some ⟨0, ascii "f"⟩, some ⟨1, ascii "gg"⟩⟩, 2)) ∧
      ∃ r, Skeleton.main Skeleton.envCopy (ascii "cp") optsCopy 4 = some r ∧
        r.disk 2 = some (ascii "ABC") ∧ r.disk 1 = some (ascii "ABC") ∧
        r.status = Status.exit 0 := by
  have hp : Skeleton.parseOptions Skeleton.envCopy (ascii "cp") optsCopy ⟨0, none, none⟩ 0 =
      ([Event.strndup (some 0), Event.strndup (some 1)],
        some (⟨0, some ⟨0, ascii "f"⟩, some ⟨1, ascii "gg"⟩⟩, 2)) := by decide
  exact ⟨hp, copy_round_trip Skeleton.envCopy (ascii "cp") optsCopy 4 _ _ _
    ⟨0, ascii "f"⟩ ⟨1, ascii "gg"⟩ (ascii "ABC") hp rfl rfl (by decide) rfl rfl rfl
    (fun _ => rfl) (fun _ => rfl) (by decide)⟩

/-- C9. Copy tool chunking and verbose report: let `b`, of length `L`, be what
the source holds once both files are open; when no read and no write fails,
the loop makes one turn per chunk of a list `cs` of chunks, each turn being
the `fread` of the chunk, the `fwrite` of the whole chunk and, in verbose mode
only, the `printf` of the line `Copied N bytes` with `N` the size of the chunk
in decimal, and ends on an `fread` that obtains nothing; these lines are all
the run prints with `printf`; the chunks put end to end are `b`, there are
`ceil(L / 8192)` of them, each has between 1 and 8192 bytes, all but the last
have 8192 and the sizes sum to `L`; for `L = 0` there is no chunk and no line. -/
theorem copy_chunking (env : Skeleton.Env) (argv0 : List Byte) (opts : List Opt)
    (fuel : Nat) (t0 : List Event) (p : Skeleton.Params) (n0 : Nat) (ci co : CStr)
    (b0 b : List Byte)
    (hparse : Skeleton.parseOptions env argv0 opts ⟨0, none, none⟩ 0 = (t0, some (p, n0)))
    (hin : p.bin_input_param = some ci) (hout : p.bin_output_param = some co)
    (hb0 : env.disk (env.resolve ci.str) = some b0)
    (hb : b = if env.resolve ci.str = env.resolve co.str then [] else b0)
    (hread : env.readable (env.resolve ci.str) = true)
    (hwrite : env.writable (env.resolve co.str) = true)
    (hr : ∀ k, env.readErr k = none) (hw : ∀ k, env.writeErr k = none)
    (hfuel : b0.length < fuel) :
    ∃ (r : Skeleton.Run) (cs : List (List Byte)),
      Skeleton.main env argv0 opts fuel = some r ∧
      r.trace = t0 ++ ([Event.dprintf 1 (Skeleton.banner ci.str co.str p.is_verbose_mode),
            Event.fopen ci.str (ascii "rb") (env.resolve ci.str) true,
            Event.fopen co.str (ascii "wb") (env.resolve co.str) true]
          ++ (cs.flatMap (fun c => [Event.fread c, Event.fwrite c c.length]
                ++ (if p.is_verbose_mode ≠ 0 then
                      [Event.printf (ascii "Copied " ++ fmt_zu c.length ++ ascii " bytes\n")]
                    else []))
              ++ [Event.fread []])
          ++ [Event.fclose 0, Event.fclose 1, Event.free ci.blk, Event.free co.blk]) ∧
      cs.flatten = b ∧
      cs.length = (b.length + 8191) / 8192 ∧
      (∀ c ∈ cs, 1 ≤ c.length ∧ c.length ≤ 8192) ∧
      (∀ c ∈ cs.dropLast, c.length = 8192) ∧
      (cs.map List.length).sum = b.length ∧
      printfs r.trace =
        (if p.is_verbose_mode ≠ 0 then
          cs.map (fun c => ascii "Copied " ++ fmt_zu c.length ++ ascii " bytes\n")
        else []) ∧
      (∀ n : Nat, isDecimalOf (fmt_zu n) n) ∧
      (b = [] → cs = [] ∧ printfs r.trace = []) := by
  have h0 : ∀ e ∈ t0, e.isStdout = false := by
    have := Skeleton.parseOptions_silent_cp env argv0 opts ⟨0, none, none⟩ 0 (p, n0)
    rw [hparse] at this
    exact this rfl
  obtain ⟨_, p0, _⟩ := silent_trace t0 h0
  have hprint : ∀ cs : List (List Byte),
      printfs (t0 ++ ([Event.dprintf 1 (Skeleton.banner ci.str co.str p.is_verbose_mode),
            Event.fopen ci.str (ascii "rb") (env.resolve ci.str) true,
            Event.fopen co.str (ascii "wb") (env.resolve co.str) true]
          ++ (cs.flatMap (Skeleton.chunkEvents p.is_verbose_mode) ++ [Event.fread []])
          ++ [Event.fclose 0, Event.fclose 1, Event.free ci.blk, Event.free co.blk])) =
        (if p.is_verbose_mode ≠ 0 then cs.map (fun c => Skeleton.copiedLine c.length)
          else []) := by
    intro cs
    simp only [printfs_append, p0, Skeleton.printfs_chunks]
    simp [printfs]
  rw [Skeleton.main_of_parse env argv0 opts fuel t0 p n0 ci co hparse hin hout]
  by_cases hsame : env.resolve ci.str = env.resolve co.str
  · rw [if_pos hsame] at hb
    subst hb
    obtain ⟨disk1, hrun, _⟩ := Skeleton.copyFile_same env p.is_verbose_mode ci co fuel b0
      hsame hb0 hread hwrite (by omega)
    rw [hrun]
    exact ⟨_, [], rfl, rfl, rfl, rfl, by simp, by simp, rfl, hprint [], fmt_zu_decimal,
      fun _ => ⟨rfl, (hprint []).trans (by split <;> rfl)⟩⟩
  · rw [if_neg hsame] at hb
    subst hb
    obtain ⟨cs, disk1, hrun, _, _, hflat, hbound, hlast, hcount⟩ :=
      Skeleton.copyFile_ok env p.is_verbose_mode ci co fuel b hsame hb0 hread hwrite hr hw hfuel
    rw [hrun]
    have hnil : b = [] → cs = [] := by
      intro hnil
      rw [hnil] at hcount
      exact List.length_eq_zero.1 (by rw [hcount]; rfl)
    refine ⟨_, cs, rfl, rfl, hflat, hcount, hbound, hlast, ?_, hprint cs, fmt_zu_decimal, ?_⟩
    · rw [← List.length_flatten, hflat]
    · intro hb
      exact ⟨hnil hb, (hprint cs).trans (by rw [hnil hb]; split <;> rfl)⟩

/-- Two sample runs for C9 in verbose mode: a source of 3 bytes gives the single
line `Copied 3 bytes`, and a source of 8193 bytes gives the two lines
`Copied 8192 bytes` and `Copied 1 bytes`. -/
theorem copy_chunking_witness :
    (∃ r : Skeleton.Run,
        Skeleton.main Skeleton.envCopy (ascii "cp") optsCopyVerbose 4 = some r ∧
        printfs r.trace = [ascii "Copied 3 bytes\n"]) ∧
      (∃ r : Skeleton.Run,
        Skeleton.main Skeleton.envBig (ascii "cp") optsCopyVerbose 8194 = some r ∧
        printfs r.trace = [ascii "Copied 8192 bytes\n", ascii "Copied 1 bytes\n"]) := by
  have hp : Skeleton.parseOptions Skeleton.envCopy (ascii "cp") optsCopyVerbose
      ⟨0, none, none⟩ 0 =
      ([Event.strndup (some 0), Event.strndup (some 1)],
        some (⟨1, some ⟨0, ascii "f"⟩, some ⟨1, ascii "gg"⟩⟩, 2)) := by decide
  have hq : Skeleton.parseOptions Skeleton.envBig (ascii "cp") optsCopyVerbose
      ⟨0, none, none⟩ 0 =
      ([Event.strndup (some 0), Event.strndup (some 1)],
        some (⟨1, some ⟨0, ascii "f"⟩, some ⟨1, ascii "gg"⟩⟩, 2)) := by decide
  constructor
  · obtain ⟨r, cs, h1, _, h3, h4, _, _, _, h8, _⟩ :=
      copy_chunking Skeleton.envCopy (ascii "cp") optsCopyVerbose 4 _ _ _
        ⟨0, ascii "f"⟩ ⟨1, ascii "gg"⟩ (ascii "ABC") (ascii "ABC") hp rfl rfl rfl (by decide)
        rfl rfl (fun _ => rfl) (fun _ => rfl) (by decide)
    have hlen : cs.length = 1 := h4
    obtain ⟨c, rfl⟩ := List.length_eq_one.1 hlen
    have hc : c = ascii "ABC" := by simpa using h3
    subst hc
    refine ⟨r, h1, ?_⟩
    rw [h8]
    decide
  · obtain ⟨r, cs, h1, _, h3, h4, _, h6, h7, h8, _⟩ :=
      copy_chunking Skeleton.envBig (ascii "cp") optsCopyVerbose 8194 _ _ _
        ⟨0, ascii "f"⟩ ⟨1, ascii "gg"⟩ (List.replicate 8193 65) (List.replicate 8193 65)
        hq rfl rfl rfl (if_neg (by decide)).symm
        rfl rfl (fun _ => rfl) (fun _ => rfl) (by rw [List.length_replicate]; decide)
    have hlen : cs.length = 2 := by
      rw [h4, List.length_replicate]
    obtain ⟨c1, c2, rfl⟩ := List.length_eq_two.1 hlen
    have e1 : c1.length = 8192 := h6 c1 (by simp)
    have e2 : c2.length = 1 := by
      simp only [List.map_cons, List.map_nil, List.sum_cons, List.sum_nil,
        List.length_replicate, e1] at h7
      omega
    refine ⟨r, h1, ?_⟩
    rw [h8]
    simp only [List.map_cons, List.map_nil, e1, e2]
    decide

/-- C10. Copy tool with identical paths: when the input and the output path
name the same existing, readable and writable file, whatever it holds, the
destination open empties it before the first read, so the loop is a single
`fread` that obtains nothing, with no `fwrite` and no `Copied N bytes` line
even in verbose mode; the exit code is 0 and the file is empty afterwards. -/
theorem copy_identical_paths (env : Skeleton.Env) (argv0 : List Byte) (opts : List Opt)
    (fuel : Nat) (t0 : List Event) (p : Skeleton.Params) (n0 : Nat) (ci co : CStr)
    (b : List Byte)
    (hparse : Skeleton.parseOptions env argv0 opts ⟨0, none, none⟩ 0 = (t0, some (p, n0)))
    (hin : p.bin_input_param = some ci) (hout : p.bin_output_param = some co)
    (hsame : env.resolve ci.str = env.resolve co.str)
    (hb : env.disk (env.resolve ci.str) = some b)
    (hread : env.readable (env.resolve ci.str) = true)
    (hwrite : env.writable (env.resolve co.str) = true)
    (hfuel : 0 < fuel) :
    ∃ r, Skeleton.main env argv0 opts fuel = some r ∧
      r.trace = t0 ++ [Event.dprintf 1 (Skeleton.banner ci.str co.str p.is_verbose_mode),
          Event.fopen ci.str (ascii "rb") (env.resolve ci.str) true,
          Event.fopen co.str (ascii "wb") (env.resolve co.str) true,
          Event.fread [],
          Event.fclose 0, Event.fclose 1, Event.free ci.blk, Event.free co.blk] ∧
      r.status = Status.exit 0 ∧
      r.disk (env.resolve ci.str) = some [] ∧
      r.disk (env.resolve co.str) = some [] := by
  obtain ⟨disk1, hrun, hdisk⟩ := Skeleton.copyFile_same env p.is_verbose_mode ci co fuel b
    hsame hb hread hwrite hfuel
  rw [Skeleton.main_of_parse env argv0 opts fuel t0 p n0 ci co hparse hin hout, hrun]
  exact ⟨_, rfl, rfl, rfl, hdisk, by rw [← hsame]; exact hdisk⟩

/-- A sample run for C10. -/
theorem copy_identical_paths_witness :
    Skeleton.parseOptions Skeleton.envCopy (ascii "cp") optsCopySame ⟨0, none, none⟩ 0 =
        ([Event.strndup (some 0), Event.strndup (some 1)],
          some (⟨1, some ⟨0, ascii "f"⟩, some ⟨1, ascii "f"⟩⟩, 2)) ∧
      Skeleton.envCopy.disk 1 = some (ascii "ABC") ∧
      ∃ r, Skeleton.main Skeleton.envCopy (ascii "cp") optsCopySame 1 = some r ∧
        r.status = Status.exit 0 ∧ r.disk 1 = some [] := by
  have hp : Skeleton.parseOptions Skeleton.envCopy (ascii "cp") optsCopySame
      ⟨0, none, none⟩ 0 =
      ([Event.strndup (some 0), Event.strndup (some 1)],
        some (⟨1, some ⟨0, ascii "f"⟩, some ⟨1, ascii "f"⟩⟩, 2)) := by decide
  obtain ⟨r, h1, _, h3, h4, _⟩ :=
    copy_identical_paths Skeleton.envCopy (ascii "cp") optsCopySame 1 _ _ _
      ⟨0, ascii "f"⟩ ⟨1, ascii "f"⟩ (ascii "ABC") hp rfl rfl rfl rfl rfl rfl (by decide)
  exact ⟨hp, rfl, r, h1, h3, h4⟩

/-- C5 fails on the code. With `-i f -o gg`, a source holding "ABC" and a first
`fread` that fails, the copy tool reports nothing, leaves the destination
empty and exits with code 0. -/
theorem copy_read_error_exits_zero :
    Skeleton.envReadError.readErr 0 = some 0 ∧
      ∃ r, Skeleton.main Skeleton.envReadError (ascii "cp") optsCopy 1 = some r ∧
        r.trace = [Event.strndup (some 0), Event.strndup (some 1),
          Event.dprintf 1 (Skeleton.banner (ascii "f") (ascii "gg") 0),
          Event.fopen (ascii "f") (ascii "rb") 1 true,
          Event.fopen (ascii "gg") (ascii "wb") 2 true,
          Event.fread [],
          Event.fclose 0, Event.fclose 1, Event.free 0, Event.free 1] ∧
        r.status = Status.exit 0 ∧
        r.disk 1 = some (ascii "ABC") ∧ r.disk 2 = some [] := by
  exact ⟨rfl, _, rfl, rfl, rfl, rfl, rfl⟩

/-- Once the help option is seen, the option loop of the reverse tool ends the
program on the usage text followed by the release of the string it holds. -/
theorem EX02.parseOptions_help_rev (env : EX02.Env) (argv0 : List Byte) :
    ∀ (opts : List Opt) (p : EX02.Params) (n : Nat), helpSeen opts →
      ∃ (pre : List Event) (held : Option CStr),
        EX02.parseOptions env argv0 opts p n =
          (pre ++ (EX02.print_usage argv0 ++ free_if_needed held), none) := by
  intro opts
  induction opts with
  | nil => intro p n h; simp [helpSeen] at h
  | cons o rest ih =>
    intro p n hh
    rw [helpSeen_cons] at hh
    rcases EX02.parseOptions_step_rev env argv0 o rest p n with
      ⟨_, heq⟩ | ⟨hn, _, v, heq⟩ | ⟨hi, a, _, heq⟩
    · exact ⟨[], p.bin_input_param, by rw [heq]; rfl⟩
    · rw [heq]; exact ih _ _ (hh.resolve_left hn)
    · have hn : o.opt ≠ 'h' := by rw [hi]; decide
      obtain ⟨pre, held, hrun⟩ := ih
        ⟨p.is_verbose_mode, (dup_optarg_str env.strndupOk env.strerror n (some a)).2.2⟩
        (dup_optarg_str env.strndupOk env.strerror n (some a)).2.1 (hh.resolve_left hn)
      exact ⟨(dup_optarg_str env.strndupOk env.strerror n (some a)).1 ++ pre, held,
        by rw [heq, hrun, List.append_assoc]⟩

/-- Once the help option is seen, the option loop of the lister ends the
program on the usage text followed by the release of the string it holds. -/
theorem EX03.parseOptions_help_ls (env : EX03.Env) (argv0 : List Byte) :
    ∀ (opts : List Opt) (p : EX03.Params) (n : Nat), helpSeen opts →
      ∃ (pre : List Event) (held : Option CStr),
        EX03.parseOptions env argv0 opts p n =
          (pre ++ (EX03.print_usage argv0 ++ free_if_needed held), none) := by
  intro opts
  induction opts with
  | nil => intro p n h; simp [helpSeen] at h
  | cons o rest ih =>
    intro p n hh
    rw [helpSeen_cons] at hh
    rcases EX03.parseOptions_step_ls env argv0 o rest p n with
      ⟨_, heq⟩ | ⟨hn, _, v, heq⟩ | ⟨hi, a, _, heq⟩
    · exact ⟨[], p.bin_directory_param, by rw [heq]; rfl⟩
    · rw [heq]; exact ih _ _ (hh.resolve_left hn)
    · have hn : o.opt ≠ 'h' := by rw [hi]; decide
      obtain ⟨pre, held, hrun⟩ := ih
        ⟨p.is_verbose_mode, (dup_optarg_str env.strndupOk env.strerror n (some a)).2.2⟩
        (dup_optarg_str env.strndupOk env.strerror n (some a)).2.1 (hh.resolve_left hn)
      exact ⟨(dup_optarg_str env.strndupOk env.strerror n (some a)).1 ++ pre, held,
        by rw [heq, hrun, List.append_assoc]⟩

/-- Once the help option is seen, the option loop of the copy tool ends the
program on the usage text followed by the release of the strings it holds. -/
theorem Skeleton.parseOptions_help_cp (env : Skeleton.Env) (argv0 : List Byte) :
    ∀ (opts : List Opt) (p : Skeleton.Params) (n : Nat), helpSeen opts →
      ∃ (pre : List Event) (held1 held2 : Option CStr),
        Skeleton.parseOptions env argv0 opts p n =
          (pre ++ (Skeleton.print_usage argv0 ++ free_if_needed held1 ++ free_if_needed held2),
            none) := by
  intro opts
  induction opts with
  | nil => intro p n h; simp [helpSeen] at h
  | cons o rest ih =>
    intro p n hh
    rw [helpSeen_cons] at hh
    rcases Skeleton.parseOptions_step_cp env argv0 o rest p n with
      ⟨_, heq⟩ | ⟨hn, _, _, v, heq⟩ | ⟨hi, a, _, heq⟩ | ⟨ho, a, _, heq⟩
    · exact ⟨[], p.bin_input_param, p.bin_output_param, by rw [heq]; rfl⟩
    · rw [heq]; exact ih _ _ (hh.resolve_left hn)
    · have hn : o.opt ≠ 'h' := by rw [hi]; decide
      obtain ⟨pre, held1, held2, hrun⟩ := ih
        ⟨p.is_verbose_mode, (dup_optarg_str env.strndupOk env.strerror n (some a)).2.2,
          p.bin_output_param⟩
        (dup_optarg_str env.strndupOk env.strerror n (some a)).2.1 (hh.resolve_left hn)
      exact ⟨(dup_optarg_str env.strndupOk env.strerror n (some a)).1 ++ pre, held1, held2,
        by rw [heq, hrun]; simp only [List.append_assoc]⟩
    · have hn : o.opt ≠ 'h' := by rw [ho]; decide
      obtain ⟨pre, held1, held2, hrun⟩ := ih
        ⟨p.is_verbose_mode, p.bin_input_param,
          (dup_optarg_str env.strndupOk env.strerror n (some a)).2.2⟩
        (dup_optarg_str env.strndupOk env.strerror n (some a)).2.1 (hh.resolve_left hn)
      exact ⟨(dup_optarg_str env.strndupOk env.strerror n (some a)).1 ++ pre, held1, held2,
        by rw [heq, hrun]; simp only [List.append_assoc]⟩

/-- The help option in the three programs, whatever precedes and follows it:
the run ends with the usage text on standard output followed by the release
of the strings still held, the exit code is 0, no file or directory is
touched and the usage-error message is not printed. -/
theorem help_exit (e2 : EX02.Env) (e3 : EX03.Env) (es : Skeleton.Env) (argv0 : List Byte)
    (opts : List Opt) (fuel : Nat) (hh : helpSeen opts) :
    ((∃ (pre : List Event) (held : Option CStr), EX02.main e2 argv0 opts =
          (pre ++ (EX02.print_usage argv0 ++ free_if_needed held), Status.exit 0)) ∧
        (∀ e ∈ (EX02.main e2 argv0 opts).1, e.isFileIO = false) ∧
        Event.dprintf STDERR BAD_USAGE ∉ (EX02.main e2 argv0 opts).1) ∧
      ((∃ (pre : List Event) (held : Option CStr), EX03.main e3 argv0 opts =
          (pre ++ (EX03.print_usage argv0 ++ free_if_needed held), Status.exit 0)) ∧
        (∀ e ∈ (EX03.main e3 argv0 opts).1, e.isFileIO = false) ∧
        Event.dprintf STDERR BAD_USAGE ∉ (EX03.main e3 argv0 opts).1) ∧
      (∃ (r : Skeleton.Run) (pre : List Event) (held1 held2 : Option CStr),
        Skeleton.main es argv0 opts fuel = some r ∧
        r.trace = pre ++ (Skeleton.print_usage argv0 ++ free_if_needed held1
          ++ free_if_needed held2) ∧
        r.status = Status.exit 0 ∧ r.disk = es.disk ∧
        (∀ e ∈ r.trace, e.isFileIO = false) ∧
        Event.dprintf STDERR BAD_USAGE ∉ r.trace) := by
  refine ⟨?_, ?_, ?_⟩
  · obtain ⟨pre, held, hrun⟩ := EX02.parseOptions_help_rev e2 argv0 opts ⟨0, none⟩ 0 hh
    have hq := EX02.parseOptions_quiet_rev e2 argv0 opts ⟨0, none⟩ 0
    have hm : EX02.main e2 argv0 opts =
        (pre ++ (EX02.print_usage argv0 ++ free_if_needed held), Status.exit 0) := by
      simp only [EX02.main, hrun, EXIT_SUCCESS]
    rw [hrun] at hq
    exact ⟨⟨pre, held, hm⟩, by rw [hm]; exact hq.1, by rw [hm]; exact hq.2⟩
  · obtain ⟨pre, held, hrun⟩ := EX03.parseOptions_help_ls e3 argv0 opts ⟨0, none⟩ 0 hh
    have hq := EX03.parseOptions_quiet_ls e3 argv0 opts ⟨0, none⟩ 0
    have hm : EX03.main e3 argv0 opts =
        (pre ++ (EX03.print_usage argv0 ++ free_if_needed held), Status.exit 0) := by
      simp only [EX03.main, hrun, EXIT_SUCCESS]
    rw [hrun] at hq
    exact ⟨⟨pre, held, hm⟩, by rw [hm]; exact hq.1, by rw [hm]; exact hq.2⟩
  · obtain ⟨pre, held1, held2, hrun⟩ :=
      Skeleton.parseOptions_help_cp es argv0 opts ⟨0, none, none⟩ 0 hh
    have hq := Skeleton.parseOptions_quiet_cp es argv0 opts ⟨0, none, none⟩ 0
    rw [hrun] at hq
    refine ⟨⟨pre ++ (Skeleton.print_usage argv0 ++ free_if_needed held1
      ++ free_if_needed held2), Status.exit 0, es.disk⟩, pre, held1, held2, ?_, rfl, rfl, rfl,
      hq.1, hq.2⟩
    simp only [Skeleton.main, hrun, EXIT_SUCCESS]

/-- A write that returns fewer bytes than requested: the copy tool reports the
error, closes both files and exits with code 1 without another `fread`. -/
theorem copy_write_error_exits_one :
    ∃ r, Skeleton.main Skeleton.envWriteError (ascii "cp") optsCopy 4 = some r ∧
      r.trace = [Event.strndup (some 0), Event.strndup (some 1),
        Event.dprintf 1 (Skeleton.banner (ascii "f") (ascii "gg") 0),
        Event.fopen (ascii "f") (ascii "rb") 1 true,
        Event.fopen (ascii "gg") (ascii "wb") 2 true,
        Event.fread (ascii "ABC"), Event.fwrite (ascii "ABC") 1,
        Event.perror (ascii "Failed to write to destination file"),
        Event.fclose 0, Event.fclose 1] ∧
      r.status = Status.exit 1 := by
  exact ⟨_, rfl, rfl, rfl⟩

end TP01
